import Mathlib

/-!
Verification of the listener-synthesis and conflict-resolution core of the
istio pilot configuration generator
(pilot/pkg/networking/core/v1alpha3/listener.go).

The Go source is shallowly embedded: every definition below mirrors one Go
function or type of listener.go unless its doc comment says it is modelled
from the specification (those are helpers whose implementation lives in
packages outside the verified file, such as the protocol table, net.ParseIP,
or the chain builders of other files).  Conflict records stand for the
metrics pushed through model.PushContext.Add; filters are represented by
their names.
-/

namespace IstioListeners

/-- Wire protocols of pkg/config/protocol.  Modelled from the spec: the
protocol package itself is outside the verified file; the constructors are
the protocol names the source file mentions (the management-port whitelist
of buildSidecarInboundMgmtListeners plus UDP and an unparseable protocol). -/
inductive Protocol
  | HTTP
  | HTTP2
  | GRPC
  | GRPCWeb
  | HTTPS
  | TLS
  | TCP
  | Mongo
  | Redis
  | MySQL
  | UDP
  | Unsupported
  deriving DecidableEq, Repr

/-- Protocol.IsHTTP of pkg/config/protocol.  Modelled from the spec: the
HTTP family is HTTP, HTTP2, GRPC and GRPC-Web. -/
def Protocol.isHTTP : Protocol → Bool
  | .HTTP | .HTTP2 | .GRPC | .GRPCWeb => true
  | _ => false

/-- Protocol.IsTCP of pkg/config/protocol.  Modelled from the spec: the TCP
family is TCP, HTTPS, TLS, Mongo, Redis and MySQL. -/
def Protocol.isTCP : Protocol → Bool
  | .TCP | .HTTPS | .TLS | .Mongo | .Redis | .MySQL => true
  | _ => false

/-- plugin.ListenerProtocol. -/
inductive ListenerProtocol
  | LPHTTP
  | LPTCP
  | LPUnknown
  deriving DecidableEq, Repr

/-- plugin.ModelProtocolToListenerProtocol.  Modelled from the spec: the
HTTP family maps to the HTTP listener protocol, the TCP family to the TCP
listener protocol, and everything else is unsupported. -/
def modelProtocolToListenerProtocol (p : Protocol) : ListenerProtocol :=
  if p.isHTTP then .LPHTTP else if p.isTCP then .LPTCP else .LPUnknown

/-- protocolName (listener.go): the label used in conflict records. -/
def protocolName (p : Protocol) : String :=
  match modelProtocolToListenerProtocol p with
  | .LPHTTP => "HTTP"
  | .LPTCP => "TCP"
  | .LPUnknown => "UNKNOWN"

/-- model.Port. -/
structure Port where
  name : String
  port : Nat
  protocol : Protocol
  deriving DecidableEq, Repr

/-- model.Service, reduced to the fields the listener code reads.  The
address field stands for GetServiceAddressForProxy, which per the spec
resolves to a single address or a CIDR range. -/
structure Service where
  hostname : String
  address : String
  ports : List Port
  deriving DecidableEq, Repr

/-- model.ServiceInstance / NetworkEndpoint, reduced to the fields read. -/
structure ServiceInstance where
  service : Service
  endpointAddress : String
  endpointPort : Nat
  endpointServicePort : Port
  deriving DecidableEq, Repr

/-- networking.CaptureMode. -/
inductive CaptureMode
  | DEFAULT
  | IPTABLES
  | NONE
  deriving DecidableEq, Repr

/-- model.InterceptionMode. -/
inductive InterceptionMode
  | REDIRECT
  | TPROXY
  | NONE
  deriving DecidableEq, Repr

/-- networking.IstioEgressListener's embedded listener config: the
user-specified port (absent for the catch-all rule), bind and capture mode. -/
structure IstioListenerCfg where
  port : Option Port
  bind : String
  captureMode : CaptureMode
  deriving DecidableEq, Repr

/-- One egress listener of the SidecarScope together with the services it
selects (EgressListener.Services()). -/
structure EgressListener where
  istioListener : Option IstioListenerCfg
  services : List Service
  deriving DecidableEq, Repr

/-- A user-declared ingress override of the Sidecar resource. -/
structure IngressListenerCfg where
  port : Port
  bind : String
  captureMode : CaptureMode
  deriving DecidableEq, Repr

/-- model.SidecarScope, reduced to the fields the listener code reads. -/
structure SidecarScope where
  hasCustomIngressListeners : Bool
  ingressListeners : List IngressListenerCfg
  egressListeners : List EgressListener
  deriving DecidableEq, Repr

/-- model.Proxy, reduced to the fields the listener code reads.
sidecarUID models Metadata[NodeMetadataSidecarUID]; allowAnyOutbound models
isAllowAnyOutbound(node) (outbound traffic policy ALLOW_ANY, resolved
outside the verified file). -/
structure Proxy where
  id : String
  ipAddresses : List String
  interceptionMode : InterceptionMode
  sidecarUID : String
  allowAnyOutbound : Bool
  serviceInstances : List ServiceInstance
  sidecarScope : SidecarScope
  deriving DecidableEq, Repr

/-- The feature gates read by listener.go (pilot/pkg/features). -/
structure Flags where
  enableFallthroughRoute : Bool
  restrictPodIPTrafficLoops : Bool
  deriving DecidableEq, Repr

/-- model.Environment, reduced to the fields the listener code reads.
managementPorts models env.ManagementPorts(ip), supplied by the snapshot. -/
structure Env where
  proxyListenPort : Nat
  proxyHttpPort : Nat
  managementPorts : String → List Port

/- Addresses (constants of listener.go). -/

def WildcardAddress : String := "0.0.0.0"

def WildcardIPv6Address : String := "::"

def LocalhostAddress : String := "127.0.0.1"

def LocalhostIPv6Address : String := "::1"

/-- The two address families net.ParseIP can report here. -/
inductive IPKind
  | v4
  | v6
  deriving DecidableEq, Repr

/-- Split a character list at every occurrence of a separator (the model
of strings.Split, written over characters so that it evaluates inside the
kernel). -/
def splitOnCharAux (c : Char) : List Char → List Char → List (List Char)
  | [], acc => [acc.reverse]
  | x :: xs, acc =>
    if x = c then acc.reverse :: splitOnCharAux c xs []
    else splitOnCharAux c xs (x :: acc)

/-- Split a character list at a separator. -/
def splitOnChar (c : Char) (s : List Char) : List (List Char) :=
  splitOnCharAux c s []

/-- Decimal value of a digit list (the model of strconv.Atoi for the
nonnegative numbers that occur here). -/
def charsToNat? (cs : List Char) : Option Nat :=
  if cs ≠ [] ∧ cs.all Char.isDigit then
    some (cs.foldl (fun n ch => n * 10 + (ch.toNat - 48)) 0)
  else none

/-- Validity of one dotted-quad octet (digits only, value at most 255). -/
def validOctet (cs : List Char) : Bool :=
  match charsToNat? cs with
  | some n => decide (n ≤ 255) && decide (cs.length ≤ 3)
  | none => false

/-- Whether a string is a dotted-quad IPv4 address. -/
def parsesAsIPv4 (s : String) : Bool :=
  match splitOnChar '.' s.data with
  | [a, b, c, d] => validOctet a && validOctet b && validOctet c && validOctet d
  | _ => false

/-- Rough well-formedness of a plain IPv6 literal (hex digits and colons). -/
def parsesAsIPv6 (s : String) : Bool :=
  s.data.contains ':' && s.data.all (fun ch =>
    ch.isDigit || (decide ('a' ≤ ch) && decide (ch ≤ 'f')) ||
      (decide ('A' ≤ ch) && decide (ch ≤ 'F')) || ch = ':')

/-- Modelled from the spec: Go's net.ParseIP combined with To4, restricted
to dotted-quad IPv4 and plain IPv6 literals (no zones, no IPv4-mapped
IPv6); the listener code only asks whether an address parses and whether it
is IPv4. -/
def parseIP (s : String) : Option IPKind :=
  if parsesAsIPv4 s then some .v4
  else if parsesAsIPv6 s then some .v6
  else none

/-- getActualWildcardAndLocalHost (listener.go): scan the proxy's address
list; the first address that parses as IPv4 selects the IPv4
wildcard/localhost pair, otherwise the IPv6 pair is returned (unparseable
addresses are skipped rather than propagated). -/
def getActualWildcardAndLocalHost (node : Proxy) : String × String :=
  if node.ipAddresses.any (fun a => parseIP a = some .v4) then
    (WildcardAddress, LocalhostAddress)
  else
    (WildcardIPv6Address, LocalhostIPv6Address)

/-- Modelled from the spec: net.IP.IsGlobalUnicast for the address strings
the model handles — the address parses and is neither unspecified, loopback
nor multicast. -/
def isGlobalUnicast (s : String) : Bool :=
  match parseIP s with
  | none => false
  | some .v4 =>
    !(s = "0.0.0.0") && !(s.data.take 4 = ['1', '2', '7', '.']) &&
      (match (splitOnChar '.' s.data).head?.bind charsToNat? with
       | some n => decide (n < 224)
       | none => false)
  | some .v6 => !(s = "::") && !(s = "::1") && !(s.startsWith "ff")

/-- getSidecarInboundBindIP (listener.go): the first global-unicast address
of the proxy, else the default inbound (wildcard) address. -/
def getSidecarInboundBindIP (node : Proxy) : String :=
  let defaultInbound := (getActualWildcardAndLocalHost node).1
  match node.ipAddresses.find? isGlobalUnicast with
  | some ip => ip
  | none => defaultInbound

/-- validatePort (listener.go): a bind-to-port listener on a port at most
1024 needs the sidecar to run as root (UID "0"). -/
def validatePort (node : Proxy) (i : Nat) (bindToPort : Bool) : Bool :=
  if !bindToPort then true
  else if i > 1024 then true
  else node.sidecarUID = "0"

/-- envoy listener.FilterChainMatch, reduced to the fields this file
constructs: sorted SNI server names and destination CIDR ranges (address
with its numeric length). -/
structure FilterChainMatch where
  serverNames : List String
  cidrRanges : List (String × Nat)
  deriving DecidableEq, Repr

/-- The zero FilterChainMatch value (listener.FilterChainMatch argument-free
literal, also the wildcardMatch of appendListenerFallthroughRoute). -/
def emptyFCM : FilterChainMatch := { serverNames := [], cidrRanges := [] }

/-- envoy listener.FilterChain, reduced to the match predicate and the
names of the network filters installed on the chain. -/
structure FilterChain where
  fcMatch : Option FilterChainMatch
  filters : List String
  deriving DecidableEq, Repr

/-- httpListenerOpts, reduced to the route-table name. -/
structure HttpOpts where
  rds : String
  deriving DecidableEq, Repr

/-- filterChainOpts (listener.go). -/
structure FilterChainOpts where
  sniHosts : List String
  destinationCIDRs : List String
  fcMatch : Option FilterChainMatch
  httpOpts : Option HttpOpts
  networkFilters : List String
  deriving DecidableEq, Repr

/-- The all-absent filterChainOpts literal. -/
def emptyChainOpts : FilterChainOpts :=
  { sniHosts := [], destinationCIDRs := [], fcMatch := none,
    httpOpts := none, networkFilters := [] }

/-- buildListenerOpts, reduced to the fields the verified code reads. -/
structure BuildListenerOpts where
  bind : String
  port : Nat
  bindToPort : Bool
  filterChainOpts : List FilterChainOpts
  deriving DecidableEq, Repr

/-- One synthesized listener (xdsapi.Listener), reduced to name, address,
port and filter chains. -/
structure Listener where
  name : String
  bindAddress : String
  port : Nat
  filterChains : List FilterChain
  deriving DecidableEq, Repr

/-- Character-wise lexicographic order on character lists. -/
def charListLe : List Char → List Char → Bool
  | [], _ => true
  | _ :: _, [] => false
  | a :: as, b :: bs => if a = b then charListLe as bs else decide (a < b)

/-- String order used to model sort.Strings (lexicographic). -/
def strLeb (a b : String) : Bool := charListLe a.data b.data

/-- Insertion step of the string sort. -/
def insertSorted (x : String) : List String → List String
  | [] => [x]
  | y :: ys => if strLeb x y then x :: y :: ys else y :: insertSorted x ys

/-- sort.Strings: sorted copy of a string list. -/
def sortStrings (l : List String) : List String :=
  l.foldr insertSorted []

/-- Modelled from the spec: util.ConvertAddressToCidr — a bare address is
normalized to a full-length /32 prefix, an address with a slash is split
into address and parsed numeric length (unparseable lengths yield nothing).
Lives in pilot/pkg/networking/util outside the verified file. -/
def convertAddressToCidr (d : String) : Option (String × Nat) :=
  if d = "" then none
  else if d.data.contains '/' then
    match splitOnChar '/' d.data with
    | [a, n] =>
      match charsToNat? n with
      | some k => some (⟨a⟩, k)
      | none => none
    | _ => none
  else some (d, 32)

/-- constants.UnspecifiedIP. -/
def UnspecifiedIP : String := "0.0.0.0"

/-- The filter-chain match constructed by buildListener for one chain opt:
start from the explicit match (or the zero value), install the sorted SNI
hosts unless a literal "*" suppresses SNI matching, append the sorted
destination CIDRs (skipping empties and the unspecified address), and
collapse to an absent match when no explicit match was given and the result
is the zero value. -/
def buildChainMatch (c : FilterChainOpts) : Option FilterChainMatch :=
  let m0 := c.fcMatch.getD emptyFCM
  let sortedHosts := sortStrings c.sniHosts
  let m1 :=
    if c.sniHosts ≠ [] ∧ ¬ sortedHosts.contains "*" then
      { m0 with serverNames := sortedHosts }
    else m0
  let cidrs := (sortStrings c.destinationCIDRs).filterMap fun d =>
    if d = "" then none
    else match convertAddressToCidr d with
      | some cd => if cd.1 ≠ UnspecifiedIP then some cd else none
      | none => none
  let m2 :=
    if c.destinationCIDRs ≠ [] then
      { m1 with cidrRanges := m1.cidrRanges ++ cidrs }
    else m1
  if c.fcMatch.isNone ∧ m2 = emptyFCM then none else some m2

/-- buildListener (listener.go): name and address from bind and port, one
filter chain per chain opt carrying the constructed match; filters are
installed later by buildCompleteFilterChain. -/
def buildListener (opts : BuildListenerOpts) : Listener :=
  { name := opts.bind ++ "_" ++ toString opts.port
    bindAddress := opts.bind
    port := opts.port
    filterChains :=
      opts.filterChainOpts.map fun c => { fcMatch := buildChainMatch c, filters := [] } }

/-- The filters buildCompleteFilterChain installs on one chain: the chain's
raw network filters for plain TCP chains, the assembled HTTP connection
manager as terminal filter for HTTP chains (plugin-contributed chain
filters are empty here: plugins are external collaborators). -/
def assembleChainFilters (c : FilterChainOpts) : List String :=
  match c.httpOpts with
  | none => c.networkFilters
  | some _ => ["envoy.http_connection_manager"]

/-- Check whether an Except carries a value. -/
def exceptIsOk {α : Type} (e : Except String α) : Bool :=
  match e with
  | .ok _ => true
  | .error _ => false

/-- buildCompleteFilterChain (listener.go): fails exactly when the listener
has zero chain opts, otherwise installs each chain's assembled filters. -/
def buildCompleteFilterChain (opts : BuildListenerOpts) (l : Listener) :
    Except String Listener :=
  if opts.filterChainOpts.isEmpty then
    .error ("must have more than 0 chains in listener: " ++ l.name)
  else
    .ok { l with
      filterChains :=
        List.zipWith (fun fc c => { fc with filters := assembleChainFilters c })
          l.filterChains opts.filterChainOpts }

/-- Whether a filter-chain match is absent or the unconditional zero value
(the two cases appendListenerFallthroughRoute treats as a wildcard). -/
def isWildcardFCMatch (m : Option FilterChainMatch) : Bool :=
  match m with
  | none => true
  | some fm => fm = emptyFCM

/-- The three outbound conflict metrics
(model.ProxyStatusConflictOutboundListener...). -/
inductive ConflictMetric
  | tcpOverHTTP
  | httpOverTCP
  | tcpOverTCP
  deriving DecidableEq, Repr

/-- outboundListenerConflict.addMetric, recorded structurally: the metric
name and the fields the pushed message is formatted from. -/
structure ConflictRecord where
  metric : ConflictMetric
  listenerName : String
  currentServices : List (Option Service)
  currentProtocol : Protocol
  newHostname : String
  newProtocol : Protocol
  deriving DecidableEq, Repr

/-- outboundListenerEntry (listener.go). -/
structure OutboundListenerEntry where
  services : List (Option Service)
  servicePort : Port
  bind : String
  listener : Listener
  locked : Bool
  deriving DecidableEq, Repr

/-- The conflict-resolution state of one outbound synthesis pass: the
bind:port keyed registry (an association list in insertion order; the Go
map's keys are unique) and the conflict records pushed so far. -/
structure OutState where
  listenerMap : List (String × OutboundListenerEntry)
  conflicts : List ConflictRecord
  deriving DecidableEq, Repr

/-- The empty conflict-resolution state. -/
def emptyOutState : OutState := { listenerMap := [], conflicts := [] }

/-- Registry lookup (Go map read). -/
def lookupEntry (k : String) :
    List (String × OutboundListenerEntry) → Option OutboundListenerEntry
  | [] => none
  | (k2, e) :: rest => if k2 = k then some e else lookupEntry k rest

/-- Registry update at one key (Go map write of an existing key). -/
def updateEntry (k : String) (f : OutboundListenerEntry → OutboundListenerEntry) :
    List (String × OutboundListenerEntry) → List (String × OutboundListenerEntry)
  | [] => []
  | (k2, e) :: rest =>
    if k2 = k then (k2, f e) :: rest else (k2, e) :: updateEntry k f rest

/-- Lock every registry entry (the catch-all pass of
buildSidecarOutboundListeners, lines 710-712). -/
def lockAllEntries (m : List (String × OutboundListenerEntry)) :
    List (String × OutboundListenerEntry) :=
  m.map fun ke => (ke.1, { ke.2 with locked := true })

/-- The per-unit inputs of a resolution (plugin.InputParams, reduced to the
fields the outbound code reads). -/
structure PluginParams where
  listenerProtocol : ListenerProtocol
  port : Port
  service : Option Service
  deriving DecidableEq, Repr

/-- Outcome of the two ...OptsForPortOrUDS helpers: reject with an updated
state (the Go functions returned false), or proceed to build with the
resolved bind, registry key, derived destination CIDR, chain opts and the
incumbent entry when one exists. -/
inductive OutboundDecision
  | reject (st2 : OutState)
  | build (bind : String) (key : String) (dcidr : String)
      (fco : List FilterChainOpts) (ce : Option OutboundListenerEntry)
  deriving Repr

/-- The bind used by the HTTP path: the wildcard when no bind was set. -/
def resolveHTTPBind (actualWildcard : String) (opts : BuildListenerOpts) : String :=
  if opts.bind = "" then actualWildcard else opts.bind

/-- The bind and derived destination CIDR of the TCP path: an unset bind
becomes the service address when it is a plain IP, or the wildcard with the
CIDR kept for the chain match when the address is a range.  (With no
service and no bind the Go code would dereference nil; that situation is
unreachable from the drivers, which always pass a service.) -/
def resolveTCPBindCIDR (actualWildcard : String) (opts : BuildListenerOpts)
    (params : PluginParams) : String × String :=
  if opts.bind = "" then
    match params.service with
    | some svc =>
      if svc.address ≠ "" then
        if svc.address.data.contains '/' then (actualWildcard, svc.address)
        else (svc.address, "")
      else ("", "")
    | none => ("", "")
  else (opts.bind, "")

/-- The registry key of a resolution, per protocol path ("%s:%d"). -/
def outboundListenerKey (actualWildcard : String) (opts : BuildListenerOpts)
    (params : PluginParams) : String :=
  match params.listenerProtocol with
  | .LPHTTP => resolveHTTPBind actualWildcard opts ++ ":" ++ toString params.port.port
  | _ =>
    (resolveTCPBindCIDR actualWildcard opts params).1 ++ ":" ++ toString params.port.port

/-- The RDS route-table name of an outbound HTTP chain: the UDS path for
port zero, else the port number. -/
def outboundRDSName (bind : String) (p : Port) : String :=
  if p.port = 0 then bind else toString p.port

/-- buildSidecarOutboundHTTPListenerOptsForPortOrUDS (listener.go): resolve
the bind and key; an existing locked entry filters the unit silently; an
existing unlocked entry rejects the unit, pushing a TCP-over-HTTP conflict
record when the unit carries a service and the incumbent is not HTTP, and
appending the unit's service to the incumbent's contributing services; a
fresh key proceeds to build with one HTTP chain opt. -/
def outboundHTTPDecision (actualWildcard : String) (opts : BuildListenerOpts)
    (params : PluginParams) (st : OutState) : OutboundDecision :=
  let bind := resolveHTTPBind actualWildcard opts
  let key := bind ++ ":" ++ toString params.port.port
  match lookupEntry key st.listenerMap with
  | some e =>
    if e.locked then .reject st
    else
      match params.service with
      | some svc =>
        let st1 :=
          if ¬ e.servicePort.protocol.isHTTP then
            { st with conflicts := st.conflicts ++
                [{ metric := .tcpOverHTTP
                   listenerName := key
                   currentServices := e.services
                   currentProtocol := e.servicePort.protocol
                   newHostname := svc.hostname
                   newProtocol := params.port.protocol }] }
          else st
        .reject { st1 with
          listenerMap := updateEntry key
            (fun e2 => { e2 with services := e2.services ++ [some svc] })
            st1.listenerMap }
      | none => .reject st
  | none =>
    .build bind key ""
      [{ emptyChainOpts with httpOpts := some { rds := outboundRDSName bind params.port } }]
      none

/-- Modelled from the spec: buildSidecarOutboundTCPTLSFilterChainOpts
(another file) — one raw-TCP chain routing to the service's cluster, whose
match is the derived destination CIDR when one exists (SNI/TLS chains from
virtual services are outside this model). -/
def buildSidecarOutboundTCPTLSFilterChainOpts (dcidr : String) (svc : Option Service) :
    List FilterChainOpts :=
  [{ emptyChainOpts with
      destinationCIDRs := if dcidr = "" then [] else [dcidr]
      networkFilters :=
        ["envoy.tcp_proxy|" ++ (match svc with | some s => s.hostname | none => "")] }]

/-- buildSidecarOutboundTCPListenerOptsForPortOrUDS (listener.go): resolve
the bind (possibly from the service address) and key; an existing locked
entry filters the unit silently; an existing non-TCP incumbent rejects the
unit with an HTTP-over-TCP conflict record; an existing TCP incumbent
proceeds (the TCP-over-TCP resolution happens at merge time), as does a
fresh key. -/
def outboundTCPDecision (actualWildcard : String) (opts : BuildListenerOpts)
    (params : PluginParams) (st : OutState) : OutboundDecision :=
  let bc := resolveTCPBindCIDR actualWildcard opts params
  let bind := bc.1
  let dcidr := bc.2
  let key := bind ++ ":" ++ toString params.port.port
  match lookupEntry key st.listenerMap with
  | some e =>
    if e.locked then .reject st
    else if ¬ e.servicePort.protocol.isTCP then
      .reject { st with conflicts := st.conflicts ++
        [{ metric := .httpOverTCP
           listenerName := key
           currentServices := e.services
           currentProtocol := e.servicePort.protocol
           newHostname :=
             match params.service with
             | some svc => svc.hostname
             | none => "sidecar-config-egress-http-listener"
           newProtocol := params.port.protocol }] }
    else
      .build bind key dcidr (buildSidecarOutboundTCPTLSFilterChainOpts dcidr params.service)
        (some e)
  | none =>
    .build bind key dcidr (buildSidecarOutboundTCPTLSFilterChainOpts dcidr params.service)
      none

/-- The blackhole chain opt prepended to wildcard-bound outbound listeners
when pod-IP traffic loops are restricted: it matches the proxy's own
addresses and terminates the connection. -/
def blackholeChainOpts (node : Proxy) : FilterChainOpts :=
  { emptyChainOpts with
      destinationCIDRs := node.ipAddresses
      networkFilters := ["envoy.blackhole"] }

/-- The unconditional pass-through chain appended by
appendListenerFallthroughRoute. -/
def fallthroughFilterChain : FilterChain :=
  { fcMatch := some emptyFCM, filters := [] }

/-- The chain opt matching the appended fallthrough chain (a lone
PassthroughCluster tcp_proxy filter). -/
def fallthroughChainOpts : FilterChainOpts :=
  { emptyChainOpts with networkFilters := ["envoy.tcp_proxy|PassthroughCluster"] }

/-- appendListenerFallthroughRoute (listener.go): when the fallthrough
feature is on and the proxy allows any outbound traffic, append one
unconditional pass-through chain — unless the freshly built listener or the
existing incumbent already holds a chain with an absent/unconditional
match. -/
def appendListenerFallthroughRoute (flags : Flags) (node : Proxy) (l : Listener)
    (opts : BuildListenerOpts) (currentListenerEntry : Option OutboundListenerEntry) :
    Listener × BuildListenerOpts :=
  if flags.enableFallthroughRoute && node.allowAnyOutbound then
    if l.filterChains.any (fun fc => isWildcardFCMatch fc.fcMatch) then (l, opts)
    else if (match currentListenerEntry with
             | some e => e.listener.filterChains.any (fun fc => isWildcardFCMatch fc.fcMatch)
             | none => false) then (l, opts)
    else
      ({ l with filterChains := l.filterChains ++ [fallthroughFilterChain] },
       { opts with filterChainOpts := opts.filterChainOpts ++ [fallthroughChainOpts] })
  else (l, opts)

/-- The duplicate-predicate test of the TCP merge loop: two absent matches
conflict, one absent and one present do not, two present matches conflict
exactly when structurally equal (reflect.DeepEqual). -/
def chainMatchConflict (existing incoming : FilterChain) : Bool :=
  match existing.fcMatch, incoming.fcMatch with
  | none, none => true
  | none, some _ => false
  | some _, none => false
  | some e, some i => e = i

/-- Whether an incoming chain conflicts with some chain of the incumbent
listener (the compareWithExisting loop). -/
def conflictsWithEntry (ce : OutboundListenerEntry) (incoming : FilterChain) : Bool :=
  ce.listener.filterChains.any fun ex => chainMatchConflict ex incoming

/-- The hostname recorded for a rejected TCP unit. -/
def tcpConflictHostname (params : PluginParams) : String :=
  match params.service with
  | some svc => svc.hostname
  | none => "sidecar-config-egress-tcp-listener"

/-- One step of the TCP-over-TCP merge fold: accumulated (chains, services,
records); a conflicting incoming chain is dropped and audited, a distinct
one is appended together with the contributing service. -/
def mergeChainStep (key : String) (params : PluginParams) (ce : OutboundListenerEntry)
    (acc : List FilterChain × List (Option Service) × List ConflictRecord)
    (inc : FilterChain) :
    List FilterChain × List (Option Service) × List ConflictRecord :=
  let nfc := acc.1
  let svcs := acc.2.1
  let recs := acc.2.2
  if conflictsWithEntry ce inc then
    (nfc, svcs, recs ++
      [{ metric := .tcpOverTCP
         listenerName := key
         currentServices := svcs
         currentProtocol := ce.servicePort.protocol
         newHostname := tcpConflictHostname params
         newProtocol := params.port.protocol }])
  else
    (nfc ++ [inc],
     (match params.service with
      | some s => svcs ++ [some s]
      | none => svcs),
     recs)

/-- The TCP-over-TCP merge of buildSidecarOutboundListenerForPortOrUDS
(lines 1127-1214): every incoming chain is compared against the incumbent's
original chains; the merged entry and the conflict records are returned. -/
def mergeTCPChains (key : String) (params : PluginParams) (ce : OutboundListenerEntry)
    (incoming : List FilterChain) : OutboundListenerEntry × List ConflictRecord :=
  let res := incoming.foldl (mergeChainStep key params ce)
    (ce.listener.filterChains, ce.services, [])
  ({ ce with
      services := res.2.1
      listener := { ce.listener with filterChains := res.1 } },
   res.2.2)

/-- The build-and-commit tail of buildSidecarOutboundListenerForPortOrUDS:
optionally prepend the blackhole chain, build the listener, optionally
append the fallthrough chain, assemble the filters, and either merge into
the TCP incumbent or create a fresh unlocked registry entry. -/
def outboundBuildCommit (flags : Flags) (node : Proxy) (actualWildcard : String)
    (opts : BuildListenerOpts) (params : PluginParams) (st : OutState) (bind key : String)
    (fco : List FilterChainOpts) (ce : Option OutboundListenerEntry) : OutState :=
  let opts1 := { opts with bind := bind, filterChainOpts := fco }
  let opts2 :=
    if opts1.bind = actualWildcard && flags.restrictPodIPTrafficLoops then
      { opts1 with filterChainOpts := blackholeChainOpts node :: opts1.filterChainOpts }
    else opts1
  let l0 := buildListener opts2
  let lo := appendListenerFallthroughRoute flags node l0 opts2 ce
  match buildCompleteFilterChain lo.2 lo.1 with
  | .error _ => st
  | .ok l2 =>
    match ce with
    | some ceE =>
      let me := mergeTCPChains key params ceE l2.filterChains
      { st with
          listenerMap := updateEntry key (fun _ => me.1) st.listenerMap
          conflicts := st.conflicts ++ me.2 }
    | none =>
      { st with
          listenerMap := st.listenerMap ++
            [(key, { services := [params.service]
                     servicePort := params.port
                     bind := bind
                     listener := l2
                     locked := false })] }

/-- buildSidecarOutboundListenerForPortOrUDS (listener.go): run the
protocol-specific resolution, then commit the build on the non-reject
outcome. -/
def buildSidecarOutboundListenerForPortOrUDS (flags : Flags) (node : Proxy)
    (actualWildcard : String) (opts : BuildListenerOpts) (params : PluginParams)
    (st : OutState) : OutState :=
  let dec :=
    match params.listenerProtocol with
    | .LPHTTP => outboundHTTPDecision actualWildcard opts params st
    | .LPTCP => outboundTCPDecision actualWildcard opts params st
    | .LPUnknown => .reject st
  match dec with
  | .reject st2 => st2
  | .build bind key _dcidr fco ce =>
    outboundBuildCommit flags node actualWildcard opts params st bind key fco ce

/-- One service resolved under one egress rule: build the listener opts and
plugin params of the unit and run the per-port resolution. -/
def processOutboundService (flags : Flags) (node : Proxy) (actualWildcard : String)
    (bind : String) (bindToPort : Bool) (listenPort : Port) (svc : Service)
    (st : OutState) : OutState :=
  buildSidecarOutboundListenerForPortOrUDS flags node actualWildcard
    { bind := bind, port := listenPort.port, bindToPort := bindToPort,
      filterChainOpts := [] }
    { listenerProtocol := modelProtocolToListenerProtocol listenPort.protocol
      port := listenPort
      service := some svc }
    st

/-- The bindToPort mode of one egress rule: forced in NONE interception
mode, or when the rule's capture mode is NONE. -/
def egressBindToPort (node : Proxy) (eg : EgressListener) : Bool :=
  if node.interceptionMode = .NONE then true
  else
    match eg.istioListener with
    | some il => il.captureMode = .NONE
    | none => false

/-- One explicit-port egress rule (buildSidecarOutboundListeners, user
specified port branch): resolve the default bind and run every selected
service through the per-port resolution on the rule's port. -/
def processExplicitPortRule (flags : Flags) (node : Proxy) (actualWildcard : String)
    (actualLocalHost : String) (il : IstioListenerCfg) (listenPort : Port)
    (services : List Service) (bindToPort : Bool) (st : OutState) : OutState :=
  let bind :=
    if bindToPort ∧ il.bind = "" then actualLocalHost
    else if il.bind = "" then actualWildcard
    else il.bind
  services.foldl
    (fun s svc =>
      processOutboundService flags node actualWildcard bind bindToPort listenPort svc s)
    st

/-- The catch-all egress rule (buildSidecarOutboundListeners, wildcard
branch): first lock every existing registry entry, then resolve every
declared port of every selected service that the proxy may bind. -/
def processCatchAllRule (flags : Flags) (node : Proxy) (actualWildcard : String)
    (actualLocalHost : String) (eg : EgressListener) (bindToPort : Bool)
    (st : OutState) : OutState :=
  let st1 := { st with listenerMap := lockAllEntries st.listenerMap }
  let bind0 :=
    match eg.istioListener with
    | some il => il.bind
    | none => ""
  let bind := if bindToPort ∧ bind0 = "" then actualLocalHost else bind0
  eg.services.foldl
    (fun s svc =>
      svc.ports.foldl
        (fun s2 sp =>
          if validatePort node sp.port bindToPort then
            processOutboundService flags node actualWildcard bind bindToPort sp svc s2
          else s2)
        s)
    st1

/-- One egress rule of the sidecar scope: explicit-port or catch-all. -/
def processEgressListener (flags : Flags) (node : Proxy) (actualWildcard : String)
    (actualLocalHost : String) (st : OutState) (eg : EgressListener) : OutState :=
  let bindToPort := egressBindToPort node eg
  match eg.istioListener with
  | some il =>
    match il.port with
    | some p =>
      processExplicitPortRule flags node actualWildcard actualLocalHost il p
        eg.services bindToPort st
    | none => processCatchAllRule flags node actualWildcard actualLocalHost eg bindToPort st
  | none => processCatchAllRule flags node actualWildcard actualLocalHost eg bindToPort st

/-- The registry produced by one outbound synthesis pass: every egress rule
of the sidecar scope processed in declared order against an initially empty
conflict-resolution state. -/
def buildSidecarOutboundRegistry (flags : Flags) (node : Proxy) : OutState :=
  let wl := getActualWildcardAndLocalHost node
  node.sidecarScope.egressListeners.foldl
    (processEgressListener flags node wl.1 wl.2) emptyOutState

/-- The final collation loop of buildSidecarOutboundListeners: one pass over
the registry entries appending TCP listeners to one list and the rest to
another, TCP group first.  The pass iterates a Go map, so the entry order it
observes is an arbitrary permutation of the registry; it is passed here as
the argument. -/
def collateStep (acc : List Listener × List Listener)
    (ke : String × OutboundListenerEntry) : List Listener × List Listener :=
  if ke.2.servicePort.protocol.isTCP then (acc.1 ++ [ke.2.listener], acc.2)
  else (acc.1, acc.2 ++ [ke.2.listener])

/-- The collation pass over the registry entries, in the order the Go map
iteration presents them. -/
def collateOutbound (entries : List (String × OutboundListenerEntry)) : List Listener :=
  let pair := entries.foldl collateStep ([], [])
  pair.1 ++ pair.2

/-- buildHTTPProxy (listener.go): the personal HTTP proxy listener on the
localhost address, enabled by the mesh proxy-http port (defaulted to 15002
in NONE interception mode). -/
def buildHTTPProxy (env : Env) (node : Proxy) : Option Listener :=
  let noneMode := node.interceptionMode = .NONE
  let httpProxyPort := if env.proxyHttpPort = 0 ∧ noneMode then 15002 else env.proxyHttpPort
  if httpProxyPort = 0 then none
  else
    let listenAddress := (getActualWildcardAndLocalHost node).2
    let opts : BuildListenerOpts :=
      { bind := listenAddress, port := httpProxyPort, bindToPort := true,
        filterChainOpts := [{ emptyChainOpts with httpOpts := some { rds := "http_proxy" } }] }
    match buildCompleteFilterChain opts (buildListener opts) with
    | .ok l => some l
    | .error _ => none

/-- buildSidecarOutboundListeners under one observed registry iteration
order: the collated registry listeners followed by the HTTP proxy listener
when one is enabled. -/
def buildSidecarOutboundListenersUnderOrder (env : Env) (node : Proxy)
    (entries : List (String × OutboundListenerEntry)) : List Listener :=
  collateOutbound entries ++
    (match buildHTTPProxy env node with
     | some l => [l]
     | none => [])

/-- buildSidecarOutboundListeners observed under the registry's insertion
order (one of the iteration orders the Go map can produce). -/
def buildSidecarOutboundListeners (flags : Flags) (env : Env) (node : Proxy) :
    List Listener :=
  buildSidecarOutboundListenersUnderOrder env node
    (buildSidecarOutboundRegistry flags node).listenerMap

/-- inboundListenerEntry (listener.go). -/
structure InboundListenerEntry where
  bind : String
  instanceHostname : String
  deriving DecidableEq, Repr

/-- The inbound duplicate audit record
(model.ProxyStatusConflictInboundListener): the contested key and the two
contributors. -/
structure InboundConflictRecord where
  key : String
  existingHostname : String
  incomingHostname : String
  deriving DecidableEq, Repr

/-- The state of one inbound synthesis pass: the stage-local duplicate map
and the inbound conflict records pushed so far. -/
structure InState where
  lmap : List (String × InboundListenerEntry)
  records : List InboundConflictRecord
  deriving DecidableEq, Repr

/-- The empty inbound state. -/
def emptyInState : InState := { lmap := [], records := [] }

/-- Inbound duplicate-map lookup. -/
def lookupInbound (k : String) :
    List (String × InboundListenerEntry) → Option InboundListenerEntry
  | [] => none
  | (k2, e) :: rest => if k2 = k then some e else lookupInbound k rest

/-- Modelled from the spec: buildInboundNetworkFilters (another file) — the
raw network filter sequence for one instance, keyed by instance identity. -/
def buildInboundNetworkFilters (inst : ServiceInstance) : List String :=
  ["envoy.tcp_proxy|inbound|" ++ inst.service.hostname]

/-- buildSidecarInboundListenerForPortOrUDS (listener.go): an already
claimed bind:port key rejects the unit with an inbound conflict record
naming both contributors; otherwise one default chain is built per the
unit's protocol (unsupported protocols abort the unit), the listener is
assembled, and only a fully assembled listener claims the key. -/
def buildSidecarInboundListenerForPortOrUDS (_node : Proxy) (opts : BuildListenerOpts)
    (lp : ListenerProtocol) (inst : ServiceInstance) (st : InState) :
    Option Listener × InState :=
  let key := opts.bind ++ ":" ++ toString opts.port
  match lookupInbound key st.lmap with
  | some old =>
    (none, { st with records := st.records ++
      [{ key := key
         existingHostname := old.instanceHostname
         incomingHostname := inst.service.hostname }] })
  | none =>
    match lp with
    | .LPUnknown => (none, st)
    | .LPHTTP =>
      let fco := [{ emptyChainOpts with httpOpts := some { rds := "" } }]
      let opts1 := { opts with filterChainOpts := fco }
      match buildCompleteFilterChain opts1 (buildListener opts1) with
      | .error _ => (none, st)
      | .ok l =>
        (some l, { st with lmap := st.lmap ++
          [(key, { bind := opts.bind, instanceHostname := inst.service.hostname })] })
    | .LPTCP =>
      let fco := [{ emptyChainOpts with networkFilters := buildInboundNetworkFilters inst }]
      let opts1 := { opts with filterChainOpts := fco }
      match buildCompleteFilterChain opts1 (buildListener opts1) with
      | .error _ => (none, st)
      | .ok l =>
        (some l, { st with lmap := st.lmap ++
          [(key, { bind := opts.bind, instanceHostname := inst.service.hostname })] })

/-- Collect a built listener when the build produced one. -/
def appendIfSome (ls : List Listener) : Option Listener → List Listener
  | some l => ls ++ [l]
  | none => ls

/-- The listener opts of one default inbound unit: bind to the endpoint
address on the endpoint port. -/
def inboundInstanceOpts (inst : ServiceInstance) : BuildListenerOpts :=
  { bind := inst.endpointAddress, port := inst.endpointPort, bindToPort := false,
    filterChainOpts := [] }

/-- One service instance of the default inbound path: run the per-port
builder, collecting the listener when the build succeeds. -/
def processInboundInstance (node : Proxy)
    (acc : List Listener × InState) (inst : ServiceInstance) : List Listener × InState :=
  let r := buildSidecarInboundListenerForPortOrUDS node (inboundInstanceOpts inst)
    (modelProtocolToListenerProtocol inst.endpointServicePort.protocol) inst acc.2
  (appendIfSome acc.1 r.1, r.2)

/-- Modelled from the spec: findServiceInstanceForIngressListener (another
file) — the service instance backing a user-declared ingress override,
matched on the declared port number. -/
def findServiceInstanceForIngressListener (instances : List ServiceInstance)
    (ing : IngressListenerCfg) : Option ServiceInstance :=
  instances.find? fun i => i.endpointServicePort.port = ing.port.port

/-- The listener opts of one user-declared ingress override
(buildSidecarInboundListeners, custom-ingress branch): bindToPort from
interception and capture modes; bind is the declared bind, else the sidecar
inbound bind IP in bindToPort mode, else the instance's endpoint address. -/
def ingressListenerOpts (node : Proxy) (ing : IngressListenerCfg)
    (inst : ServiceInstance) : BuildListenerOpts :=
  let noneMode := node.interceptionMode = InterceptionMode.NONE
  let bindToPort : Bool := noneMode ∨ ing.captureMode = .NONE
  let bind :=
    if ing.bind = "" ∧ bindToPort = true then getSidecarInboundBindIP node
    else if ing.bind = "" then inst.endpointAddress
    else ing.bind
  { bind := bind, port := ing.port.port, bindToPort := bindToPort, filterChainOpts := [] }

/-- One user-declared ingress override: resolve its bind and bindToPort
mode, then run the per-port builder on the backing instance, collecting the
listener when the build succeeds. -/
def processIngressListener (node : Proxy)
    (acc : List Listener × InState) (ing : IngressListenerCfg) : List Listener × InState :=
  match findServiceInstanceForIngressListener node.serviceInstances ing with
  | none => acc
  | some inst =>
    let r := buildSidecarInboundListenerForPortOrUDS node (ingressListenerOpts node ing inst)
      (modelProtocolToListenerProtocol ing.port.protocol) inst acc.2
    (appendIfSome acc.1 r.1, r.2)

/-- buildSidecarInboundListeners (listener.go): with no custom ingress
declaration, one listener per service instance, none in NONE interception
mode; with a custom declaration, one listener per declared ingress
override. -/
def buildSidecarInboundListeners (node : Proxy) : List Listener × InState :=
  if ¬ node.sidecarScope.hasCustomIngressListeners then
    if node.interceptionMode = .NONE then ([], emptyInState)
    else node.serviceInstances.foldl (processInboundInstance node) ([], emptyInState)
  else
    node.sidecarScope.ingressListeners.foldl (processIngressListener node) ([], emptyInState)

/-- The protocols buildSidecarInboundMgmtListeners accepts for management
ports. -/
def mgmtProtocolSupported (p : Protocol) : Bool :=
  match p with
  | .HTTP | .HTTP2 | .GRPC | .GRPCWeb | .TCP | .HTTPS | .TLS | .Mongo | .Redis | .MySQL =>
    true
  | _ => false

/-- buildSidecarInboundMgmtListeners (listener.go): raw-TCP listeners on
the management address for each supported management port; none in NONE
interception mode; an empty address falls back to the localhost of the
proxy's first address family. -/
def buildSidecarInboundMgmtListeners (node : Proxy) (managementPorts : List Port)
    (managementIP : String) : List Listener :=
  let mip :=
    if managementIP = "" then
      match node.ipAddresses.head? with
      | some a => if parseIP a = some .v6 then "::1" else "127.0.0.1"
      | none => "127.0.0.1"
    else managementIP
  if node.interceptionMode = .NONE then []
  else
    managementPorts.foldl
      (fun ls mPort =>
        if mgmtProtocolSupported mPort.protocol then
          let opts : BuildListenerOpts :=
            { bind := mip, port := mPort.port, bindToPort := false,
              filterChainOpts := [{ emptyChainOpts with
                networkFilters := ["envoy.tcp_proxy|inbound|mgmtCluster"] }] }
          match buildCompleteFilterChain opts (buildListener opts) with
          | .ok l => ls ++ [l]
          | .error _ => ls
        else ls)
      []

/-- generateManagementListeners (listener.go): skipped under custom ingress
declarations and NONE interception; otherwise management listeners are
built per proxy address and appended, dropping any whose address collides
with an already accumulated listener (the service listener wins). -/
def generateManagementListeners (env : Env) (node : Proxy)
    (listeners : List Listener) : List Listener :=
  if node.sidecarScope.hasCustomIngressListeners ∨ node.interceptionMode = .NONE then
    listeners
  else
    let mgmt := node.ipAddresses.foldl
      (fun acc ip => acc ++ buildSidecarInboundMgmtListeners node (env.managementPorts ip) ip)
      []
    mgmt.foldl
      (fun ls m =>
        if ls.any (fun l => l.bindAddress = m.bindAddress ∧ l.port = m.port) then ls
        else ls ++ [m])
      listeners

/-- Modelled from the spec: the traffic-capture ("virtual") stage built by
the ListenerBuilder (another file) — with traffic capture in use, the
virtual outbound listener on the wildcard at the mesh redirect port and the
virtual inbound listener on the wildcard at port 15006. -/
def buildVirtualListeners (env : Env) (node : Proxy) : List Listener :=
  if node.interceptionMode = .NONE then []
  else
    let aw := (getActualWildcardAndLocalHost node).1
    [{ name := "virtualOutbound", bindAddress := aw, port := env.proxyListenPort,
       filterChains := [{ fcMatch := none, filters := ["envoy.tcp_proxy|virtual"] }] },
     { name := "virtualInbound", bindAddress := aw, port := 15006,
       filterChains := [{ fcMatch := none, filters := ["envoy.tcp_proxy|virtualIn"] }] }]

/-- buildSidecarListeners (listener.go) with the stage sequencing of the
ListenerBuilder, which is modelled from the spec: inbound, outbound,
management and virtual-capture listeners in that fixed order (nothing is
built when the mesh redirect port is zero). -/
def buildSidecarListeners (flags : Flags) (env : Env) (node : Proxy) : List Listener :=
  if env.proxyListenPort > 0 then
    let inb := (buildSidecarInboundListeners node).1
    let outb := buildSidecarOutboundListeners flags env node
    let withMgmt := generateManagementListeners env node (inb ++ outb)
    withMgmt ++ buildVirtualListeners env node
  else []

/-- The bind:port key a listener occupies. -/
def listenerKey (l : Listener) : String :=
  l.bindAddress ++ ":" ++ toString l.port

/-- The (bind address, port) pair of a listener. -/
def listenerPair (l : Listener) : String × Nat :=
  (l.bindAddress, l.port)

/- Concrete snapshots used by the counterexamples and witnesses below. -/

/-- A TCP port 8080 declaration. -/
def tcp8080 : Port := { name := "tcp", port := 8080, protocol := .TCP }

/-- An HTTP port 8080 declaration. -/
def http8080 : Port := { name := "http", port := 8080, protocol := .HTTP }

/-- A snapshot environment with the standard redirect port and no
management ports. -/
def envSimple : Env :=
  { proxyListenPort := 15001, proxyHttpPort := 0, managementPorts := fun _ => [] }

/-- All feature gates off. -/
def flagsOff : Flags :=
  { enableFallthroughRoute := false, restrictPodIPTrafficLoops := false }

/-- The fallthrough-route feature gate on. -/
def flagsFall : Flags :=
  { enableFallthroughRoute := true, restrictPodIPTrafficLoops := false }

/-- A sidecar scope with default ingress and the given egress rules. -/
def scopeOf (egs : List EgressListener) : SidecarScope :=
  { hasCustomIngressListeners := false, ingressListeners := [], egressListeners := egs }

/-- A local service whose endpoint the proxy hosts. -/
def svcIn : Service := { hostname := "in.example.com", address := "10.0.0.9", ports := [tcp8080] }

/-- The proxy-local instance of svcIn at 10.0.0.1:8080. -/
def instIn : ServiceInstance :=
  { service := svcIn, endpointAddress := "10.0.0.1", endpointPort := 8080,
    endpointServicePort := tcp8080 }

/-- An outbound TCP service whose VIP coincides with the local endpoint
address of instIn. -/
def svcOutC1 : Service :=
  { hostname := "out.example.com", address := "10.0.0.1", ports := [tcp8080] }

/-- The proxy of the cross-stage duplicate scenario: it hosts instIn and
its scope exposes svcOutC1 through a catch-all egress rule. -/
def nodeC1 : Proxy :=
  { id := "sidecar~10.0.0.1", ipAddresses := ["10.0.0.5"], interceptionMode := .REDIRECT,
    sidecarUID := "1337", allowAnyOutbound := false, serviceInstances := [instIn],
    sidecarScope := scopeOf [{ istioListener := none, services := [svcOutC1] }] }

/-- A TCP service resolving to a CIDR range. -/
def svcA : Service :=
  { hostname := "a.example.com", address := "10.1.0.0/16", ports := [tcp8080] }

/-- A headless TCP service resolving to the unspecified address (NONE
resolution), hence to the wildcard bind. -/
def svcB : Service :=
  { hostname := "b.example.com", address := "0.0.0.0", ports := [tcp8080] }

/-- The proxy of the double-unconditional-chain scenario: allow-any
outbound policy, svcA then svcB on one catch-all rule. -/
def nodeC6 : Proxy :=
  { nodeC1 with
    allowAnyOutbound := true
    serviceInstances := []
    sidecarScope := scopeOf [{ istioListener := none, services := [svcA, svcB] }] }

/-- A TCP service on its own VIP and port. -/
def svcP : Service :=
  { hostname := "p.example.com", address := "10.0.0.1",
    ports := [{ name := "tcp", port := 9000, protocol := .TCP }] }

/-- A second TCP service on a distinct VIP and port. -/
def svcQ : Service :=
  { hostname := "q.example.com", address := "10.0.0.2",
    ports := [{ name := "tcp", port := 9001, protocol := .TCP }] }

/-- The proxy of the iteration-order scenario: two TCP services on
distinct keys under one catch-all rule. -/
def nodeC7 : Proxy :=
  { nodeC1 with
    serviceInstances := []
    sidecarScope := scopeOf [{ istioListener := none, services := [svcP, svcQ] }] }

/-- The registry of the iteration-order scenario. -/
def regC7 : OutState := buildSidecarOutboundRegistry flagsOff nodeC7

/-- A headless TCP service claiming the wildcard 8080 key. -/
def svcT : Service :=
  { hostname := "tcp.example.com", address := "0.0.0.0", ports := [tcp8080] }

/-- An HTTP service whose outbound listener also lands on the wildcard
8080 key. -/
def svcH : Service :=
  { hostname := "http.example.com", address := "10.9.9.9", ports := [http8080] }

/-- A second HTTP service colliding with svcH on the wildcard 8080 key. -/
def svcH2 : Service :=
  { hostname := "http2.example.com", address := "10.9.9.10", ports := [http8080] }

/-- The proxy processing only the TCP incumbent svcT. -/
def nodeT : Proxy :=
  { nodeC1 with
    serviceInstances := []
    sidecarScope := scopeOf [{ istioListener := none, services := [svcT] }] }

/-- The proxy processing svcT then the conflicting HTTP service svcH. -/
def nodeC2 : Proxy :=
  { nodeC1 with
    serviceInstances := []
    sidecarScope := scopeOf [{ istioListener := none, services := [svcT, svcH] }] }

/-- The registry holding only the TCP incumbent of svcT. -/
def regT : OutState := buildSidecarOutboundRegistry flagsOff nodeT

/-- A default outbound entry, used to read lookups in closed statements. -/
def defaultEntry : OutboundListenerEntry :=
  { services := [], servicePort := tcp8080, bind := "",
    listener := { name := "", bindAddress := "", port := 0, filterChains := [] },
    locked := false }

/-- The TCP incumbent entry of regT at the wildcard 8080 key. -/
def entryT : OutboundListenerEntry :=
  (lookupEntry "0.0.0.0:8080" regT.listenerMap).getD defaultEntry

/-- The proxy processing only the HTTP service svcH. -/
def nodeH : Proxy :=
  { nodeC1 with
    serviceInstances := []
    sidecarScope := scopeOf [{ istioListener := none, services := [svcH] }] }

/-- The registry holding only the HTTP incumbent of svcH. -/
def regH : OutState := buildSidecarOutboundRegistry flagsOff nodeH

/-- The HTTP incumbent entry of regH at the wildcard 8080 key. -/
def entryH : OutboundListenerEntry :=
  (lookupEntry "0.0.0.0:8080" regH.listenerMap).getD defaultEntry

/-- Listener opts as the catch-all driver passes them for port 8080 with
no explicit bind. -/
def opts8080 : BuildListenerOpts :=
  { bind := "", port := 8080, bindToPort := false, filterChainOpts := [] }

/-- Plugin params of the arriving HTTP unit svcH. -/
def paramsH : PluginParams :=
  { listenerProtocol := .LPHTTP, port := http8080, service := some svcH }

/-- Plugin params of a second arriving HTTP unit svcH2. -/
def paramsH2 : PluginParams :=
  { listenerProtocol := .LPHTTP, port := http8080, service := some svcH2 }

/-- Plugin params of the arriving TCP unit svcT. -/
def paramsT : PluginParams :=
  { listenerProtocol := .LPTCP, port := tcp8080, service := some svcT }

/-- Listener opts with zero filter chains and a concrete bind, feeding the
assembly-failure scenario. -/
def c8opts : BuildListenerOpts :=
  { bind := "x", port := 1, bindToPort := true, filterChainOpts := [emptyChainOpts] }

/-- An inbound instance colliding with instIn on 10.0.0.1:8080 but backed
by a different service. -/
def instIn2 : ServiceInstance :=
  { service := { hostname := "in2.example.com", address := "10.0.0.10", ports := [tcp8080] },
    endpointAddress := "10.0.0.1", endpointPort := 8080, endpointServicePort := tcp8080 }

/-- Inbound listener opts for the 10.0.0.1:8080 endpoint. -/
def inOpts : BuildListenerOpts :=
  { bind := "10.0.0.1", port := 8080, bindToPort := false, filterChainOpts := [] }

/-- Plugin params of a second arriving TCP unit svcB on port 8080. -/
def paramsB : PluginParams :=
  { listenerProtocol := .LPTCP, port := tcp8080, service := some svcB }

/-- An incoming catch-all TCP chain as svcB's build would produce. -/
def incomingB : List FilterChain :=
  [{ fcMatch := none, filters := ["envoy.tcp_proxy|b.example.com"] }]

/-- A freshly built listener with a single CIDR-matched chain, feeding the
fallthrough-append witness. -/
def lCond : Listener :=
  { name := "0.0.0.0_8080", bindAddress := "0.0.0.0", port := 8080,
    filterChains := [{ fcMatch := some { serverNames := [], cidrRanges := [("10.1.0.0", 16)] },
                       filters := [] }] }

/-- The invariant of the outbound registry: keys occur at most once and
each key is exactly the bind:port of the entry's listener. -/
def RegistryInv (m : List (String × OutboundListenerEntry)) : Prop :=
  (m.map Prod.fst).Nodup ∧ ∀ ke ∈ m, ke.1 = listenerKey ke.2.listener

/-- The invariant of the inbound stage: the keys of the emitted listeners,
in emission order, are exactly the keys of the duplicate map, and those
keys are distinct. -/
def InboundInv (ls : List Listener) (st : InState) : Prop :=
  ls.map listenerKey = st.lmap.map Prod.fst ∧ (st.lmap.map Prod.fst).Nodup

/- Association-list lemmas for the registries. -/

theorem lookupEntry_eq_none_iff (k : String) (m : List (String × OutboundListenerEntry)) :
    lookupEntry k m = none ↔ k ∉ m.map Prod.fst := by
  induction m with
  | nil => simp [lookupEntry]
  | cons ke rest ih =>
    obtain ⟨k2, e⟩ := ke
    by_cases h : k2 = k
    · subst h
      simp [lookupEntry]
    · simp only [lookupEntry, if_neg h, ih, List.map_cons, List.mem_cons]
      constructor
      · rintro hk (rfl | hm)
        · exact h rfl
        · exact hk hm
      · intro hk hm
        exact hk (Or.inr hm)

theorem lookupEntry_mem {k : String} {m : List (String × OutboundListenerEntry)}
    {e : OutboundListenerEntry} (h : lookupEntry k m = some e) : (k, e) ∈ m := by
  induction m with
  | nil => simp [lookupEntry] at h
  | cons ke rest ih =>
    obtain ⟨k2, e2⟩ := ke
    by_cases h2 : k2 = k
    · subst h2
      simp [lookupEntry] at h
      subst h
      exact List.mem_cons_self _ _
    · simp [lookupEntry, h2] at h
      exact List.mem_cons_of_mem _ (ih h)

theorem updateEntry_map_fst (k : String) (f : OutboundListenerEntry → OutboundListenerEntry)
    (m : List (String × OutboundListenerEntry)) :
    (updateEntry k f m).map Prod.fst = m.map Prod.fst := by
  induction m with
  | nil => rfl
  | cons ke rest ih =>
    obtain ⟨k2, e⟩ := ke
    by_cases h : k2 = k
    · simp [updateEntry, h]
    · simp [updateEntry, h, ih]

theorem lookupEntry_updateEntry_self {k : String} {m : List (String × OutboundListenerEntry)}
    {e : OutboundListenerEntry} (f : OutboundListenerEntry → OutboundListenerEntry)
    (h : lookupEntry k m = some e) :
    lookupEntry k (updateEntry k f m) = some (f e) := by
  induction m with
  | nil => simp [lookupEntry] at h
  | cons ke rest ih =>
    obtain ⟨k2, e2⟩ := ke
    by_cases h2 : k2 = k
    · subst h2
      simp [lookupEntry] at h
      subst h
      simp [updateEntry, lookupEntry]
    · simp only [lookupEntry, if_neg h2] at h
      simp [updateEntry, lookupEntry, h2, ih h]

theorem mem_updateEntry {ke : String × OutboundListenerEntry} {k : String}
    {f : OutboundListenerEntry → OutboundListenerEntry}
    {m : List (String × OutboundListenerEntry)} (h : ke ∈ updateEntry k f m) :
    ke ∈ m ∨ ∃ e, (k, e) ∈ m ∧ ke = (k, f e) := by
  induction m with
  | nil => simp [updateEntry] at h
  | cons ke2 rest ih =>
    obtain ⟨k2, e2⟩ := ke2
    by_cases h2 : k2 = k
    · subst h2
      simp only [updateEntry, if_pos, List.mem_cons] at h
      rcases h with h | h
      · exact Or.inr ⟨e2, List.mem_cons_self _ _, h⟩
      · exact Or.inl (List.mem_cons_of_mem _ h)
    · simp only [updateEntry, if_neg h2, List.mem_cons] at h
      rcases h with h | h
      · exact Or.inl (by simp [h])
      · rcases ih h with h3 | ⟨e, he, hke⟩
        · exact Or.inl (List.mem_cons_of_mem _ h3)
        · exact Or.inr ⟨e, List.mem_cons_of_mem _ he, hke⟩

theorem lookupEntry_lockAllEntries {k : String} {m : List (String × OutboundListenerEntry)}
    {e : OutboundListenerEntry} (h : lookupEntry k (lockAllEntries m) = some e) :
    e.locked = true := by
  induction m with
  | nil => simp [lockAllEntries, lookupEntry] at h
  | cons ke rest ih =>
    obtain ⟨k2, e2⟩ := ke
    by_cases h2 : k2 = k
    · subst h2
      simp [lockAllEntries, lookupEntry] at h
      subst h
      rfl
    · simp only [lockAllEntries, List.map_cons, lookupEntry, if_neg h2] at h
      exact ih h

/- Claim C8. -/

/-- C8 counterexample: a listener with one chain whose assembled filter
list is empty is returned successfully by filter-chain assembly — the
claimed error does not occur; the listener (with its empty-filter chain) is
kept. -/
theorem empty_filter_list_assembles_ok :
    buildCompleteFilterChain c8opts (buildListener c8opts) =
      .ok { name := "x_1", bindAddress := "x", port := 1,
            filterChains := [{ fcMatch := none, filters := [] }] } := by
  rfl

/-- C8 (amended): filter-chain assembly fails precisely when the listener
has zero filter chains; a chain whose final filter list is empty is not an
error. -/
theorem assembly_error_iff_no_chains (opts : BuildListenerOpts) (l : Listener) :
    exceptIsOk (buildCompleteFilterChain opts l) = false ↔ opts.filterChainOpts = [] := by
  cases h : opts.filterChainOpts with
  | nil => simp [buildCompleteFilterChain, exceptIsOk, h]
  | cons c rest => simp [buildCompleteFilterChain, exceptIsOk, h]

/- Claim C9. -/

/-- C9: evaluating the wildcard/localhost resolution at the failing input —
a proxy whose only address is the IPv4 loopback 127.0.0.1 gets the IPv4
pair, although the claim (and the function's own documentation, which asks
for an IPv4 address other than 127.0.0.1) requires the IPv6 pair for a
loopback-only proxy; a proxy with no parseable address does get the IPv6
pair as claimed. -/
theorem wildcard_selection_ignores_loopback :
    getActualWildcardAndLocalHost { nodeC1 with ipAddresses := ["127.0.0.1"] } =
      (WildcardAddress, LocalhostAddress) ∧
    getActualWildcardAndLocalHost { nodeC1 with ipAddresses := ["not-an-ip"] } =
      (WildcardIPv6Address, LocalhostIPv6Address) := by
  constructor
  · decide
  · decide

/- Claims C2, C4, C5: one outbound resolution against an existing entry. -/

/-- C2 (amended): cross-protocol collisions on an unlocked key reject the
arriving unit and audit a direction-specific record.  An arriving TCP unit
over a non-TCP incumbent leaves the registry untouched (HTTP-over-TCP
record only); an arriving HTTP unit over a non-HTTP incumbent audits a
TCP-over-HTTP record and gains no chains, but — unlike the claim — the
arriving service is appended to the incumbent's contributing services. -/
theorem cross_protocol_conflict_resolution :
    (∀ (flags : Flags) (node : Proxy) (aw : String) (opts : BuildListenerOpts)
        (params : PluginParams) (st : OutState) (e : OutboundListenerEntry) (svc : Service),
        params.listenerProtocol = .LPHTTP →
        params.service = some svc →
        lookupEntry (resolveHTTPBind aw opts ++ ":" ++ toString params.port.port)
          st.listenerMap = some e →
        e.locked = false →
        e.servicePort.protocol.isHTTP = false →
        buildSidecarOutboundListenerForPortOrUDS flags node aw opts params st =
          { listenerMap :=
              updateEntry (resolveHTTPBind aw opts ++ ":" ++ toString params.port.port)
                (fun e2 => { e2 with services := e2.services ++ [some svc] })
                st.listenerMap
            conflicts := st.conflicts ++
              [{ metric := .tcpOverHTTP
                 listenerName := resolveHTTPBind aw opts ++ ":" ++ toString params.port.port
                 currentServices := e.services
                 currentProtocol := e.servicePort.protocol
                 newHostname := svc.hostname
                 newProtocol := params.port.protocol }] }) ∧
    (∀ (flags : Flags) (node : Proxy) (aw : String) (opts : BuildListenerOpts)
        (params : PluginParams) (st : OutState) (e : OutboundListenerEntry) (svc : Service),
        params.listenerProtocol = .LPTCP →
        params.service = some svc →
        lookupEntry ((resolveTCPBindCIDR aw opts params).1 ++ ":" ++ toString params.port.port)
          st.listenerMap = some e →
        e.locked = false →
        e.servicePort.protocol.isTCP = false →
        buildSidecarOutboundListenerForPortOrUDS flags node aw opts params st =
          { st with conflicts := st.conflicts ++
              [{ metric := .httpOverTCP
                 listenerName :=
                   (resolveTCPBindCIDR aw opts params).1 ++ ":" ++ toString params.port.port
                 currentServices := e.services
                 currentProtocol := e.servicePort.protocol
                 newHostname := svc.hostname
                 newProtocol := params.port.protocol }] }) := by
  constructor
  · intro flags node aw opts params st e svc hlp hsvc hlook hunlocked hproto
    simp only [buildSidecarOutboundListenerForPortOrUDS, hlp, outboundHTTPDecision,
      hlook, hsvc, hunlocked, hproto]
    simp
  · intro flags node aw opts params st e svc hlp hsvc hlook hunlocked hproto
    simp only [buildSidecarOutboundListenerForPortOrUDS, hlp, outboundTCPDecision,
      hlook, hsvc, hunlocked, hproto]
    simp

/-- C2 counterexample: in the HTTP-arriving-over-TCP direction the
incumbent entry is not unaffected — processing svcT alone leaves its
contributing-service list at exactly svcT, while processing svcT then the
colliding HTTP service svcH leaves the incumbent's contributing-service
list holding both services, so the incumbent's contributing-service set
changed. -/
theorem http_over_tcp_mutates_incumbent_services :
    (lookupEntry "0.0.0.0:8080" regT.listenerMap).map (fun e => e.services) =
      some [some svcT] ∧
    (lookupEntry "0.0.0.0:8080"
        (buildSidecarOutboundRegistry flagsOff nodeC2).listenerMap).map
        (fun e => e.services) = some [some svcT, some svcH] ∧
    (lookupEntry "0.0.0.0:8080"
        (buildSidecarOutboundRegistry flagsOff nodeC2).listenerMap).map
        (fun e => e.services) ≠
      (lookupEntry "0.0.0.0:8080" regT.listenerMap).map (fun e => e.services) := by
  refine ⟨by decide, by decide, by decide⟩

/-- C4: the catch-all pass locks every existing registry entry, and any
resolution whose key lands on a locked entry returns with the state
entirely unchanged — no chains, no contributing services, no audit
record. -/
theorem locked_entries_reject_silently :
    (∀ (m : List (String × OutboundListenerEntry)) (k : String) (e : OutboundListenerEntry),
        lookupEntry k (lockAllEntries m) = some e → e.locked = true) ∧
    (∀ (flags : Flags) (node : Proxy) (aw : String) (opts : BuildListenerOpts)
        (params : PluginParams) (st : OutState) (e : OutboundListenerEntry),
        lookupEntry (outboundListenerKey aw opts params) st.listenerMap = some e →
        e.locked = true →
        buildSidecarOutboundListenerForPortOrUDS flags node aw opts params st = st) := by
  constructor
  · intro m k e h
    exact lookupEntry_lockAllEntries h
  · intro flags node aw opts params st e hlook hlocked
    cases hlp : params.listenerProtocol with
    | LPHTTP =>
      simp only [outboundListenerKey, hlp] at hlook
      simp only [buildSidecarOutboundListenerForPortOrUDS, hlp, outboundHTTPDecision,
        hlook, hlocked]
      simp
    | LPTCP =>
      simp only [outboundListenerKey, hlp] at hlook
      simp only [buildSidecarOutboundListenerForPortOrUDS, hlp, outboundTCPDecision,
        hlook, hlocked]
      simp
    | LPUnknown =>
      simp [buildSidecarOutboundListenerForPortOrUDS, hlp]

/-- C5: an HTTP unit resolving onto an unlocked HTTP incumbent merges —
the registry keeps the same keys, the incumbent's listener (and hence its
filter-chain list, built from the first-processed service) is unchanged,
no conflict record is pushed, and the arriving service is appended to the
incumbent's contributing services. -/
theorem http_collision_merges_contributors (flags : Flags) (node : Proxy) (aw : String)
    (opts : BuildListenerOpts) (params : PluginParams) (st : OutState)
    (e : OutboundListenerEntry) (svc : Service)
    (hlp : params.listenerProtocol = .LPHTTP)
    (hsvc : params.service = some svc)
    (hlook : lookupEntry (resolveHTTPBind aw opts ++ ":" ++ toString params.port.port)
      st.listenerMap = some e)
    (hunlocked : e.locked = false)
    (hhttp : e.servicePort.protocol.isHTTP = true) :
    buildSidecarOutboundListenerForPortOrUDS flags node aw opts params st =
      { st with
          listenerMap := updateEntry
            (resolveHTTPBind aw opts ++ ":" ++ toString params.port.port)
            (fun e2 => { e2 with services := e2.services ++ [some svc] })
            st.listenerMap } ∧
    (buildSidecarOutboundListenerForPortOrUDS flags node aw opts params st).listenerMap.map
        Prod.fst = st.listenerMap.map Prod.fst ∧
    lookupEntry (resolveHTTPBind aw opts ++ ":" ++ toString params.port.port)
        (buildSidecarOutboundListenerForPortOrUDS flags node aw opts params st).listenerMap =
      some { e with services := e.services ++ [some svc] } := by
  have hstep : buildSidecarOutboundListenerForPortOrUDS flags node aw opts params st =
      { st with
          listenerMap := updateEntry
            (resolveHTTPBind aw opts ++ ":" ++ toString params.port.port)
            (fun e2 => { e2 with services := e2.services ++ [some svc] })
            st.listenerMap } := by
    simp only [buildSidecarOutboundListenerForPortOrUDS, hlp, outboundHTTPDecision,
      hlook, hsvc, hunlocked, hhttp]
    simp
  refine ⟨hstep, ?_, ?_⟩
  · rw [hstep]
    exact updateEntry_map_fst _ _ _
  · rw [hstep]
    exact lookupEntry_updateEntry_self _ hlook

/- Claim C3: the TCP-over-TCP merge. -/

theorem mergeFold_chains (key : String) (params : PluginParams) (ce : OutboundListenerEntry)
    (incoming : List FilterChain) (c0 : List FilterChain) (svcs0 : List (Option Service))
    (recs0 : List ConflictRecord) :
    (incoming.foldl (mergeChainStep key params ce) (c0, svcs0, recs0)).1 =
      c0 ++ incoming.filter (fun c => !(conflictsWithEntry ce c)) := by
  induction incoming generalizing c0 svcs0 recs0 with
  | nil => simp
  | cons c rest ih =>
    by_cases h : conflictsWithEntry ce c
    · simp [mergeChainStep, h, ih]
    · simp [mergeChainStep, h, ih]

theorem mergeFold_services (key : String) (params : PluginParams) (ce : OutboundListenerEntry)
    (incoming : List FilterChain) (c0 : List FilterChain) (svcs0 : List (Option Service))
    (recs0 : List ConflictRecord) (svc : Service) (hsvc : params.service = some svc) :
    (incoming.foldl (mergeChainStep key params ce) (c0, svcs0, recs0)).2.1 =
      svcs0 ++ (incoming.filter (fun c => !(conflictsWithEntry ce c))).map
        (fun _ => some svc) := by
  induction incoming generalizing c0 svcs0 recs0 with
  | nil => simp
  | cons c rest ih =>
    by_cases h : conflictsWithEntry ce c
    · simp [mergeChainStep, h, ih]
    · simp [mergeChainStep, h, hsvc, ih]

theorem mergeFold_records_length (key : String) (params : PluginParams)
    (ce : OutboundListenerEntry) (incoming : List FilterChain) (c0 : List FilterChain)
    (svcs0 : List (Option Service)) (recs0 : List ConflictRecord) :
    (incoming.foldl (mergeChainStep key params ce) (c0, svcs0, recs0)).2.2.length =
      recs0.length + incoming.countP (conflictsWithEntry ce) := by
  induction incoming generalizing c0 svcs0 recs0 with
  | nil => simp
  | cons c rest ih =>
    by_cases h : conflictsWithEntry ce c
    · simp [mergeChainStep, h, ih, List.countP_cons]
      omega
    · simp [mergeChainStep, h, ih, List.countP_cons]

theorem mergeFold_records_mem (key : String) (params : PluginParams)
    (ce : OutboundListenerEntry) (incoming : List FilterChain) (c0 : List FilterChain)
    (svcs0 : List (Option Service)) (recs0 : List ConflictRecord) :
    ∀ r ∈ (incoming.foldl (mergeChainStep key params ce) (c0, svcs0, recs0)).2.2,
      r ∈ recs0 ∨
        (r.metric = .tcpOverTCP ∧ r.listenerName = key ∧
         r.currentProtocol = ce.servicePort.protocol ∧
         r.newHostname = tcpConflictHostname params ∧
         r.newProtocol = params.port.protocol) := by
  induction incoming generalizing c0 svcs0 recs0 with
  | nil =>
    intro r hr
    exact Or.inl hr
  | cons c rest ih =>
    intro r hr
    by_cases h : conflictsWithEntry ce c
    · simp only [List.foldl_cons, mergeChainStep, h, if_pos] at hr
      rcases ih _ _ _ r hr with hmem | hfields
      · rcases List.mem_append.mp hmem with hold | hnew
        · exact Or.inl hold
        · simp at hnew
          subst hnew
          exact Or.inr ⟨rfl, rfl, rfl, rfl, rfl⟩
      · exact Or.inr hfields
    · simp only [List.foldl_cons, mergeChainStep, h, if_neg] at hr
      exact ih _ _ _ r hr

/-- C3: for a TCP-over-TCP merge carrying a service, the incumbent's
chains are extended with exactly the incoming chains whose match predicate
conflicts with no existing chain's predicate (two absent predicates or
structurally equal present predicates conflict); the contributing service
is added once per accepted chain and not for any rejected chain; one
TCP-over-TCP conflict record is pushed per rejected chain, naming the
incumbent's key, protocol and the arriving hostname; the entry's bind,
port, lock state and the listener's address are unchanged. -/
theorem tcp_merge_duplicate_predicate_resolution (key : String) (params : PluginParams)
    (ce : OutboundListenerEntry) (incoming : List FilterChain) (svc : Service)
    (hsvc : params.service = some svc) :
    (mergeTCPChains key params ce incoming).1.listener.filterChains =
      ce.listener.filterChains ++ incoming.filter (fun c => !(conflictsWithEntry ce c)) ∧
    (mergeTCPChains key params ce incoming).1.services =
      ce.services ++ (incoming.filter (fun c => !(conflictsWithEntry ce c))).map
        (fun _ => some svc) ∧
    (mergeTCPChains key params ce incoming).2.length =
      incoming.countP (conflictsWithEntry ce) ∧
    (∀ r ∈ (mergeTCPChains key params ce incoming).2,
      r.metric = .tcpOverTCP ∧ r.listenerName = key ∧
      r.currentProtocol = ce.servicePort.protocol ∧
      r.newHostname = svc.hostname ∧ r.newProtocol = params.port.protocol) ∧
    (mergeTCPChains key params ce incoming).1.servicePort = ce.servicePort ∧
    (mergeTCPChains key params ce incoming).1.bind = ce.bind ∧
    (mergeTCPChains key params ce incoming).1.locked = ce.locked ∧
    (mergeTCPChains key params ce incoming).1.listener.bindAddress =
      ce.listener.bindAddress ∧
    (mergeTCPChains key params ce incoming).1.listener.port = ce.listener.port := by
  have hhost : tcpConflictHostname params = svc.hostname := by
    simp [tcpConflictHostname, hsvc]
  refine ⟨?_, ?_, ?_, ?_, rfl, rfl, rfl, rfl, rfl⟩
  · simpa [mergeTCPChains] using
      mergeFold_chains key params ce incoming ce.listener.filterChains ce.services []
  · simpa [mergeTCPChains] using
      mergeFold_services key params ce incoming ce.listener.filterChains ce.services []
        svc hsvc
  · simpa [mergeTCPChains] using
      mergeFold_records_length key params ce incoming ce.listener.filterChains ce.services []
  · intro r hr
    have := mergeFold_records_mem key params ce incoming ce.listener.filterChains
      ce.services [] r (by simpa [mergeTCPChains] using hr)
    rcases this with hmem | hfields
    · simp at hmem
    · exact ⟨hfields.1, hfields.2.1, hfields.2.2.1, hhost ▸ hfields.2.2.2.1,
        hfields.2.2.2.2⟩

/-- C3 witness: merging svcB's catch-all chain into the incumbent entry of
svcT (whose only chain is also a catch-all) rejects it — the number of
TCP-over-TCP records equals the number of conflicting incoming chains. -/
theorem tcp_merge_duplicate_predicate_resolution_witness :
    (mergeTCPChains "0.0.0.0:8080" paramsB entryT incomingB).2.length =
      incomingB.countP (conflictsWithEntry entryT) :=
  (tcp_merge_duplicate_predicate_resolution "0.0.0.0:8080" paramsB entryT incomingB
    svcB rfl).2.2.1

/-- C2 witness: both cross-protocol directions exercised on reachable
registries — the TCP unit svcT arriving over the HTTP incumbent of svcH,
and the HTTP unit svcH arriving over the TCP incumbent of svcT. -/
theorem cross_protocol_conflict_resolution_witness :
    buildSidecarOutboundListenerForPortOrUDS flagsOff nodeC2 "0.0.0.0" opts8080 paramsT
        regH =
      { regH with conflicts := regH.conflicts ++
          [{ metric := .httpOverTCP
             listenerName :=
               (resolveTCPBindCIDR "0.0.0.0" opts8080 paramsT).1 ++ ":" ++
                 toString paramsT.port.port
             currentServices := entryH.services
             currentProtocol := entryH.servicePort.protocol
             newHostname := svcT.hostname
             newProtocol := paramsT.port.protocol }] } ∧
    buildSidecarOutboundListenerForPortOrUDS flagsOff nodeC2 "0.0.0.0" opts8080 paramsH
        regT =
      { listenerMap :=
          updateEntry (resolveHTTPBind "0.0.0.0" opts8080 ++ ":" ++ toString paramsH.port.port)
            (fun e2 => { e2 with services := e2.services ++ [some svcH] })
            regT.listenerMap
        conflicts := regT.conflicts ++
          [{ metric := .tcpOverHTTP
             listenerName :=
               resolveHTTPBind "0.0.0.0" opts8080 ++ ":" ++ toString paramsH.port.port
             currentServices := entryT.services
             currentProtocol := entryT.servicePort.protocol
             newHostname := svcH.hostname
             newProtocol := paramsH.port.protocol }] } :=
  ⟨cross_protocol_conflict_resolution.2 flagsOff nodeC2 "0.0.0.0" opts8080 paramsT regH
      entryH svcT rfl rfl (by decide) (by decide) (by decide),
   cross_protocol_conflict_resolution.1 flagsOff nodeC2 "0.0.0.0" opts8080 paramsH regT
      entryT svcH rfl rfl (by decide) (by decide) (by decide)⟩

/-- C4 witness: after locking the registry holding svcT's entry, the entry
reads back locked, and a colliding HTTP resolution returns the state
unchanged. -/
theorem locked_entries_reject_silently_witness :
    ((lookupEntry "0.0.0.0:8080" (lockAllEntries regT.listenerMap)).getD
        defaultEntry).locked = true ∧
    buildSidecarOutboundListenerForPortOrUDS flagsOff nodeC2 "0.0.0.0" opts8080 paramsH
        { listenerMap := lockAllEntries regT.listenerMap, conflicts := regT.conflicts } =
      { listenerMap := lockAllEntries regT.listenerMap, conflicts := regT.conflicts } :=
  ⟨locked_entries_reject_silently.1 regT.listenerMap "0.0.0.0:8080"
      ((lookupEntry "0.0.0.0:8080" (lockAllEntries regT.listenerMap)).getD defaultEntry)
      (by decide),
   locked_entries_reject_silently.2 flagsOff nodeC2 "0.0.0.0" opts8080 paramsH
      { listenerMap := lockAllEntries regT.listenerMap, conflicts := regT.conflicts }
      ((lookupEntry "0.0.0.0:8080" (lockAllEntries regT.listenerMap)).getD defaultEntry)
      (by decide) (by decide)⟩

/-- C5 witness: the second HTTP service svcH2 arriving on svcH's key reads
back as an appended contributor of the unchanged incumbent entry. -/
theorem http_collision_merges_contributors_witness :
    lookupEntry (resolveHTTPBind "0.0.0.0" opts8080 ++ ":" ++ toString paramsH2.port.port)
        (buildSidecarOutboundListenerForPortOrUDS flagsOff nodeC2 "0.0.0.0" opts8080
          paramsH2 regH).listenerMap =
      some { entryH with services := entryH.services ++ [some svcH2] } :=
  (http_collision_merges_contributors flagsOff nodeC2 "0.0.0.0" opts8080 paramsH2 regH
    entryH svcH2 rfl rfl (by decide) (by decide) (by decide)).2.2

/- Claim C6: unconditional filter chains. -/

/-- C6 counterexample: a full synthesis whose output holds a listener with
two absent/unconditional-match filter chains — svcA's build appends the
unconditional fallthrough chain (empty match), and svcB's later catch-all
chain (absent match) is merged in because the TCP merge only treats absent
matches as catch-alls. -/
theorem listener_with_two_unconditional_chains :
    (buildSidecarListeners flagsFall envSimple nodeC6).any
      (fun l => decide
        (2 ≤ l.filterChains.countP (fun fc => isWildcardFCMatch fc.fcMatch))) = true := by
  decide

/-- C6 (amended): whenever the fallthrough pass appends its unconditional
chain, no chain of the freshly built listener and no chain of the incumbent
was absent/unconditional, the appended chain is exactly one trailing
pass-through chain, and the resulting listener then holds exactly one
unconditional chain.  (The output as a whole may still hold listeners with
two unconditional chains, per the counterexample.) -/
theorem fallthrough_append_guard (flags : Flags) (node : Proxy) (l : Listener)
    (opts : BuildListenerOpts) (ce : Option OutboundListenerEntry)
    (happend : (appendListenerFallthroughRoute flags node l opts ce).1 ≠ l) :
    l.filterChains.all (fun fc => !(isWildcardFCMatch fc.fcMatch)) = true ∧
    (∀ e, ce = some e →
      e.listener.filterChains.all (fun fc => !(isWildcardFCMatch fc.fcMatch)) = true) ∧
    (appendListenerFallthroughRoute flags node l opts ce).1.filterChains =
      l.filterChains ++ [fallthroughFilterChain] ∧
    (appendListenerFallthroughRoute flags node l opts ce).1.filterChains.countP
      (fun fc => isWildcardFCMatch fc.fcMatch) = 1 := by
  by_cases hgate : (flags.enableFallthroughRoute && node.allowAnyOutbound) = true
  case neg => exact absurd (by simp [appendListenerFallthroughRoute, hgate]) happend
  by_cases hl : l.filterChains.any (fun fc => isWildcardFCMatch fc.fcMatch) = true
  case pos => exact absurd (by simp [appendListenerFallthroughRoute, hgate, hl]) happend
  have hlf : l.filterChains.any (fun fc => isWildcardFCMatch fc.fcMatch) = false := by
    simpa using hl
  have hlall : ∀ fc ∈ l.filterChains, isWildcardFCMatch fc.fcMatch = false := by
    intro fc hfc
    cases hval : isWildcardFCMatch fc.fcMatch with
    | false => rfl
    | true =>
      exact absurd
        (show l.filterChains.any (fun fc => isWildcardFCMatch fc.fcMatch) = true from
          List.any_eq_true.2 ⟨fc, hfc, hval⟩)
        (by simp [hlf])
  have hcount : ∀ res : Listener,
      res.filterChains = l.filterChains ++ [fallthroughFilterChain] →
      res.filterChains.countP (fun fc => isWildcardFCMatch fc.fcMatch) = 1 := by
    intro res hres
    rw [hres, List.countP_append,
      List.countP_eq_zero.2 (fun a ha => by simp [hlall a ha])]
    decide
  cases ce with
  | none =>
    have hres : (appendListenerFallthroughRoute flags node l opts none).1 =
        { l with filterChains := l.filterChains ++ [fallthroughFilterChain] } := by
      simp [appendListenerFallthroughRoute, hgate, hlf]
    refine ⟨List.all_eq_true.2 (fun fc hfc => by simp [hlall fc hfc]),
      fun e he => Option.noConfusion he, by rw [hres], hcount _ (by rw [hres])⟩
  | some e =>
    by_cases hcee : e.listener.filterChains.any (fun fc => isWildcardFCMatch fc.fcMatch) = true
    · exact absurd (by simp [appendListenerFallthroughRoute, hgate, hlf, hcee]) happend
    · have hceef : e.listener.filterChains.any
          (fun fc => isWildcardFCMatch fc.fcMatch) = false := by
        simpa using hcee
      have hres : (appendListenerFallthroughRoute flags node l opts (some e)).1 =
          { l with filterChains := l.filterChains ++ [fallthroughFilterChain] } := by
        simp [appendListenerFallthroughRoute, hgate, hlf, hceef]
      refine ⟨List.all_eq_true.2 (fun fc hfc => by simp [hlall fc hfc]), ?_,
        by rw [hres], hcount _ (by rw [hres])⟩
      intro e2 he2
      injection he2 with he2
      subst he2
      refine List.all_eq_true.2 fun fc hfc => ?_
      cases hval : isWildcardFCMatch fc.fcMatch with
      | false => simp
      | true =>
        exact absurd
          (show e.listener.filterChains.any
              (fun fc => isWildcardFCMatch fc.fcMatch) = true from
            List.any_eq_true.2 ⟨fc, hfc, hval⟩)
          (by simp [hceef])

/-- C6 witness: on a listener with one conditional chain and no incumbent,
the fallthrough pass appends exactly the unconditional pass-through
chain. -/
theorem fallthrough_append_guard_witness :
    (appendListenerFallthroughRoute flagsFall nodeC6 lCond opts8080 none).1.filterChains =
      lCond.filterChains ++ [fallthroughFilterChain] :=
  (fallthrough_append_guard flagsFall nodeC6 lCond opts8080 none (by decide)).2.2.1

/- Claim C7: determinism of the collated output. -/

theorem collateFold (entries : List (String × OutboundListenerEntry))
    (a b : List Listener) :
    entries.foldl collateStep (a, b) =
      (a ++ (entries.filter (fun ke => ke.2.servicePort.protocol.isTCP)).map
          (fun ke => ke.2.listener),
       b ++ (entries.filter (fun ke => !(ke.2.servicePort.protocol.isTCP))).map
          (fun ke => ke.2.listener)) := by
  induction entries generalizing a b with
  | nil => simp
  | cons ke rest ih =>
    by_cases h : ke.2.servicePort.protocol.isTCP = true
    · simp [collateStep, h, ih]
    · simp only [Bool.not_eq_true] at h
      simp [collateStep, h, ih]

theorem collateOutbound_eq (entries : List (String × OutboundListenerEntry)) :
    collateOutbound entries =
      (entries.filter (fun ke => ke.2.servicePort.protocol.isTCP)).map
          (fun ke => ke.2.listener) ++
        (entries.filter (fun ke => !(ke.2.servicePort.protocol.isTCP))).map
          (fun ke => ke.2.listener) := by
  simp [collateOutbound, collateFold]

/-- C7 counterexample: the registry of two TCP services allows two map
iteration orders (the insertion order and its reverse — permutations of one
another) under which the collated ordered outputs differ, so the ordered
output is not a function of the snapshot alone. -/
theorem collation_depends_on_iteration_order :
    regC7.listenerMap.reverse.Perm regC7.listenerMap ∧
    buildSidecarOutboundListenersUnderOrder envSimple nodeC7 regC7.listenerMap ≠
      buildSidecarOutboundListenersUnderOrder envSimple nodeC7 regC7.listenerMap.reverse :=
  ⟨List.reverse_perm _, by decide⟩

/-- C7 (amended): re-synthesis against an unchanged snapshot rebuilds the
same registry (the registry construction is a function of the snapshot),
and the collated outputs observed under any two registry iteration orders
are permutations of each other — the listener multiset is deterministic,
the order within the TCP and HTTP groups is not. -/
theorem output_determined_up_to_iteration_order (flags : Flags) (env : Env) (node : Proxy)
    (ord1 ord2 : List (String × OutboundListenerEntry))
    (h1 : ord1.Perm (buildSidecarOutboundRegistry flags node).listenerMap)
    (h2 : ord2.Perm (buildSidecarOutboundRegistry flags node).listenerMap) :
    (buildSidecarOutboundListenersUnderOrder env node ord1).Perm
      (buildSidecarOutboundListenersUnderOrder env node ord2) := by
  have h12 : ord1.Perm ord2 := h1.trans h2.symm
  unfold buildSidecarOutboundListenersUnderOrder
  refine List.Perm.append ?_ (List.Perm.refl _)
  rw [collateOutbound_eq, collateOutbound_eq]
  exact List.Perm.append ((h12.filter _).map _) ((h12.filter _).map _)

/-- C7 witness: the two observed outputs of the two-service registry under
the insertion order and the reversed order are permutations of each
other. -/
theorem output_determined_up_to_iteration_order_witness :
    (buildSidecarOutboundListenersUnderOrder envSimple nodeC7 regC7.listenerMap).Perm
      (buildSidecarOutboundListenersUnderOrder envSimple nodeC7
        regC7.listenerMap.reverse) :=
  output_determined_up_to_iteration_order flagsOff envSimple nodeC7 _ _
    (List.Perm.refl _) (List.reverse_perm _)

/- Claim C10: inbound keys are claimed only by successful builds. -/

/-- C10: with a fresh bind:port key, a unit whose protocol is unsupported
produces no listener and leaves the duplicate map and the audit records
untouched; any failing build with a fresh key leaves the state untouched;
and a later supported unit on the very same key builds its listener
normally — the key is claimed for it and no inbound conflict record is
emitted. -/
theorem failed_inbound_build_leaves_key_unclaimed (node : Proxy)
    (opts : BuildListenerOpts) (inst1 inst2 : ServiceInstance) (lp2 : ListenerProtocol)
    (st : InState)
    (hfresh : lookupInbound (opts.bind ++ ":" ++ toString opts.port) st.lmap = none)
    (hlp2 : lp2 = .LPHTTP ∨ lp2 = .LPTCP) :
    buildSidecarInboundListenerForPortOrUDS node opts .LPUnknown inst1 st = (none, st) ∧
    (∀ (lp : ListenerProtocol) (r2 : InState),
      buildSidecarInboundListenerForPortOrUDS node opts lp inst1 st = (none, r2) →
      r2 = st) ∧
    (buildSidecarInboundListenerForPortOrUDS node opts lp2 inst2 st).1.isSome = true ∧
    (buildSidecarInboundListenerForPortOrUDS node opts lp2 inst2 st).2.lmap =
      st.lmap ++ [(opts.bind ++ ":" ++ toString opts.port,
        { bind := opts.bind, instanceHostname := inst2.service.hostname })] ∧
    (buildSidecarInboundListenerForPortOrUDS node opts lp2 inst2 st).2.records =
      st.records := by
  refine ⟨?_, ?_, ?_⟩
  · simp [buildSidecarInboundListenerForPortOrUDS, hfresh]
  · intro lp r2 hres
    cases lp with
    | LPUnknown =>
      simp [buildSidecarInboundListenerForPortOrUDS, hfresh] at hres
      exact hres.symm
    | LPHTTP =>
      simp [buildSidecarInboundListenerForPortOrUDS, hfresh, buildCompleteFilterChain,
        buildListener] at hres
    | LPTCP =>
      simp [buildSidecarInboundListenerForPortOrUDS, hfresh, buildCompleteFilterChain,
        buildListener] at hres
  · rcases hlp2 with h | h <;> subst h <;>
      simp [buildSidecarInboundListenerForPortOrUDS, hfresh, buildCompleteFilterChain,
        buildListener]

/-- C10 witness: on the empty inbound state, an unsupported unit at
10.0.0.1:8080 changes nothing, and the later instance instIn2 on the same
key then builds with no conflict record. -/
theorem failed_inbound_build_leaves_key_unclaimed_witness :
    buildSidecarInboundListenerForPortOrUDS nodeC1 inOpts .LPUnknown instIn
        emptyInState = (none, emptyInState) ∧
    (buildSidecarInboundListenerForPortOrUDS nodeC1 inOpts .LPTCP instIn2
        emptyInState).2.records = emptyInState.records :=
  ⟨(failed_inbound_build_leaves_key_unclaimed nodeC1 inOpts instIn instIn2 .LPTCP
      emptyInState (by decide) (Or.inr rfl)).1,
   (failed_inbound_build_leaves_key_unclaimed nodeC1 inOpts instIn instIn2 .LPTCP
      emptyInState (by decide) (Or.inr rfl)).2.2.2.2⟩

/- Claim C1: key uniqueness within the inbound stage and within the
outbound registry. -/

theorem buildListener_bindAddress (opts : BuildListenerOpts) :
    (buildListener opts).bindAddress = opts.bind := rfl

theorem buildListener_port (opts : BuildListenerOpts) :
    (buildListener opts).port = opts.port := rfl

theorem appendFallthrough_fst_bindAddress (flags : Flags) (node : Proxy) (l : Listener)
    (opts : BuildListenerOpts) (ce : Option OutboundListenerEntry) :
    (appendListenerFallthroughRoute flags node l opts ce).1.bindAddress = l.bindAddress := by
  unfold appendListenerFallthroughRoute
  split_ifs <;> rfl

theorem appendFallthrough_fst_port (flags : Flags) (node : Proxy) (l : Listener)
    (opts : BuildListenerOpts) (ce : Option OutboundListenerEntry) :
    (appendListenerFallthroughRoute flags node l opts ce).1.port = l.port := by
  unfold appendListenerFallthroughRoute
  split_ifs <;> rfl

theorem appendFallthrough_snd_ne_nil (flags : Flags) (node : Proxy) (l : Listener)
    (opts : BuildListenerOpts) (ce : Option OutboundListenerEntry)
    (h : opts.filterChainOpts ≠ []) :
    (appendListenerFallthroughRoute flags node l opts ce).2.filterChainOpts ≠ [] := by
  unfold appendListenerFallthroughRoute
  split_ifs <;> simp_all

theorem buildCompleteFilterChain_eq_ok (opts : BuildListenerOpts) (l : Listener)
    (h : opts.filterChainOpts ≠ []) :
    ∃ l2, buildCompleteFilterChain opts l = .ok l2 ∧
      l2.bindAddress = l.bindAddress ∧ l2.port = l.port := by
  have hne : opts.filterChainOpts.isEmpty = false := by simp [List.isEmpty_iff, h]
  refine ⟨{ l with
      filterChains := List.zipWith
        (fun fc c => { fc with filters := assembleChainFilters c })
        l.filterChains opts.filterChainOpts }, ?_, rfl, rfl⟩
  simp [buildCompleteFilterChain, hne]

theorem mergeTCPChains_listener_frame (key : String) (params : PluginParams)
    (ce : OutboundListenerEntry) (incoming : List FilterChain) :
    (mergeTCPChains key params ce incoming).1.listener.bindAddress =
        ce.listener.bindAddress ∧
      (mergeTCPChains key params ce incoming).1.listener.port = ce.listener.port :=
  ⟨rfl, rfl⟩

theorem RegistryInv_nil : RegistryInv [] := ⟨List.nodup_nil, by simp⟩

theorem RegistryInv_updateEntry (m : List (String × OutboundListenerEntry)) (k : String)
    (g : OutboundListenerEntry → OutboundListenerEntry)
    (hg : ∀ e, (g e).listener = e.listener) (h : RegistryInv m) :
    RegistryInv (updateEntry k g m) := by
  refine ⟨by rw [updateEntry_map_fst]; exact h.1, ?_⟩
  intro ke hke
  rcases mem_updateEntry hke with hm | ⟨e, hem, hkee⟩
  · exact h.2 ke hm
  · subst hkee
    show k = listenerKey (g e).listener
    rw [hg e]
    exact h.2 (k, e) hem

theorem RegistryInv_updateEntry_replace (m : List (String × OutboundListenerEntry))
    (k : String) (e2 : OutboundListenerEntry) (hkey : k = listenerKey e2.listener)
    (h : RegistryInv m) : RegistryInv (updateEntry k (fun _ => e2) m) := by
  refine ⟨by rw [updateEntry_map_fst]; exact h.1, ?_⟩
  intro ke hke
  rcases mem_updateEntry hke with hm | ⟨e, _hem, hkee⟩
  · exact h.2 ke hm
  · subst hkee
    exact hkey

theorem RegistryInv_append_fresh (m : List (String × OutboundListenerEntry)) (k : String)
    (e : OutboundListenerEntry) (hkey : k = listenerKey e.listener)
    (hfresh : lookupEntry k m = none) (h : RegistryInv m) :
    RegistryInv (m ++ [(k, e)]) := by
  constructor
  · rw [List.map_append]
    refine h.1.append (List.nodup_singleton _) ?_
    simpa using (lookupEntry_eq_none_iff k m).1 hfresh
  · intro ke hke
    rcases List.mem_append.mp hke with hm | hm
    · exact h.2 ke hm
    · simp at hm
      subst hm
      exact hkey

theorem RegistryInv_lockAllEntries (m : List (String × OutboundListenerEntry))
    (h : RegistryInv m) : RegistryInv (lockAllEntries m) := by
  constructor
  · have : (lockAllEntries m).map Prod.fst = m.map Prod.fst := by
      simp [lockAllEntries]
    rw [this]
    exact h.1
  · intro ke hke
    rcases List.mem_map.mp hke with ⟨ke0, hke0, hkee⟩
    subst hkee
    exact h.2 ke0 hke0

theorem outboundHTTPDecision_reject_map {aw : String} {opts : BuildListenerOpts}
    {params : PluginParams} {st st2 : OutState}
    (h : outboundHTTPDecision aw opts params st = .reject st2) :
    st2.listenerMap = st.listenerMap ∨
    ∃ k g, st2.listenerMap = updateEntry k g st.listenerMap ∧
      ∀ e, (g e).listener = e.listener := by
  cases hlook : lookupEntry (resolveHTTPBind aw opts ++ ":" ++ toString params.port.port)
      st.listenerMap with
  | none =>
    simp [outboundHTTPDecision, hlook] at h
  | some e =>
    by_cases hlocked : e.locked = true
    · simp only [outboundHTTPDecision, hlook, hlocked] at h
      simp at h
      subst h
      exact Or.inl rfl
    · cases hsvc : params.service with
      | none =>
        simp only [outboundHTTPDecision, hlook, hsvc] at h
        simp [hlocked] at h
        subst h
        exact Or.inl rfl
      | some svc =>
        by_cases hproto : e.servicePort.protocol.isHTTP = true
        · simp only [outboundHTTPDecision, hlook, hsvc] at h
          simp [hlocked, hproto] at h
          subst h
          exact Or.inr ⟨_, _, rfl, fun e2 => rfl⟩
        · simp only [outboundHTTPDecision, hlook, hsvc] at h
          simp [hlocked, hproto] at h
          subst h
          exact Or.inr ⟨_, _, rfl, fun e2 => rfl⟩

theorem outboundHTTPDecision_build_inv {aw : String} {opts : BuildListenerOpts}
    {params : PluginParams} {st : OutState} {bind key dcidr : String}
    {fco : List FilterChainOpts} {ce : Option OutboundListenerEntry}
    (h : outboundHTTPDecision aw opts params st = .build bind key dcidr fco ce) :
    key = bind ++ ":" ++ toString params.port.port ∧ fco ≠ [] ∧ ce = none ∧
    lookupEntry key st.listenerMap = none := by
  cases hlook : lookupEntry (resolveHTTPBind aw opts ++ ":" ++ toString params.port.port)
      st.listenerMap with
  | none =>
    simp only [outboundHTTPDecision, hlook] at h
    simp at h
    obtain ⟨hb, hk, _hd, hf, hc⟩ := h
    subst hb
    subst hk
    refine ⟨rfl, ?_, hc.symm, hlook⟩
    rw [← hf]
    simp
  | some e =>
    by_cases hlocked : e.locked = true
    · simp [outboundHTTPDecision, hlook, hlocked] at h
    · cases hsvc : params.service with
      | none => simp [outboundHTTPDecision, hlook, hsvc, hlocked] at h
      | some svc =>
        by_cases hproto : e.servicePort.protocol.isHTTP = true
        · simp [outboundHTTPDecision, hlook, hsvc, hlocked, hproto] at h
        · simp [outboundHTTPDecision, hlook, hsvc, hlocked, hproto] at h

theorem outboundTCPDecision_reject_map {aw : String} {opts : BuildListenerOpts}
    {params : PluginParams} {st st2 : OutState}
    (h : outboundTCPDecision aw opts params st = .reject st2) :
    st2.listenerMap = st.listenerMap := by
  cases hlook : lookupEntry
      ((resolveTCPBindCIDR aw opts params).1 ++ ":" ++ toString params.port.port)
      st.listenerMap with
  | none =>
    simp [outboundTCPDecision, hlook] at h
  | some e =>
    by_cases hlocked : e.locked = true
    · simp only [outboundTCPDecision, hlook, hlocked] at h
      simp at h
      subst h
      rfl
    · by_cases hproto : e.servicePort.protocol.isTCP = true
      · simp [outboundTCPDecision, hlook, hlocked, hproto] at h
      · simp only [outboundTCPDecision, hlook] at h
        simp [hlocked, hproto] at h
        subst h
        rfl

theorem outboundTCPDecision_build_inv {aw : String} {opts : BuildListenerOpts}
    {params : PluginParams} {st : OutState} {bind key dcidr : String}
    {fco : List FilterChainOpts} {ce : Option OutboundListenerEntry}
    (h : outboundTCPDecision aw opts params st = .build bind key dcidr fco ce) :
    key = bind ++ ":" ++ toString params.port.port ∧ fco ≠ [] ∧
    ((ce = none ∧ lookupEntry key st.listenerMap = none) ∨
     (∃ e, ce = some e ∧ lookupEntry key st.listenerMap = some e)) := by
  cases hlook : lookupEntry
      ((resolveTCPBindCIDR aw opts params).1 ++ ":" ++ toString params.port.port)
      st.listenerMap with
  | none =>
    simp only [outboundTCPDecision, hlook] at h
    simp at h
    obtain ⟨hb, hk, _hd, hf, hc⟩ := h
    subst hb
    subst hk
    refine ⟨rfl, ?_, Or.inl ⟨hc.symm, hlook⟩⟩
    rw [← hf]
    simp [buildSidecarOutboundTCPTLSFilterChainOpts]
  | some e =>
    by_cases hlocked : e.locked = true
    · simp [outboundTCPDecision, hlook, hlocked] at h
    · by_cases hproto : e.servicePort.protocol.isTCP = true
      · simp only [outboundTCPDecision, hlook] at h
        simp [hlocked, hproto] at h
        obtain ⟨hb, hk, _hd, hf, hc⟩ := h
        subst hb
        subst hk
        refine ⟨rfl, ?_, Or.inr ⟨e, hc.symm, hlook⟩⟩
        rw [← hf]
        simp [buildSidecarOutboundTCPTLSFilterChainOpts]
      · simp [outboundTCPDecision, hlook, hlocked, hproto] at h

theorem outboundBuildCommit_registryInv (flags : Flags) (node : Proxy) (aw : String)
    (opts : BuildListenerOpts) (params : PluginParams) (st : OutState) (bind key : String)
    (fco : List FilterChainOpts) (ce : Option OutboundListenerEntry)
    (hkey : key = bind ++ ":" ++ toString params.port.port)
    (hport : opts.port = params.port.port)
    (hfco : fco ≠ [])
    (hce : (ce = none ∧ lookupEntry key st.listenerMap = none) ∨
           (∃ e, ce = some e ∧ lookupEntry key st.listenerMap = some e))
    (hinv : RegistryInv st.listenerMap) :
    RegistryInv
      (outboundBuildCommit flags node aw opts params st bind key fco ce).listenerMap := by
  simp only [outboundBuildCommit]
  set opts1 : BuildListenerOpts := { opts with bind := bind, filterChainOpts := fco }
    with hopts1
  set opts2 : BuildListenerOpts :=
    if opts1.bind = aw && flags.restrictPodIPTrafficLoops then
      { opts1 with filterChainOpts := blackholeChainOpts node :: opts1.filterChainOpts }
    else opts1 with hopts2
  have hopts2bind : opts2.bind = bind := by
    rw [hopts2]
    split_ifs <;> rfl
  have hopts2port : opts2.port = opts.port := by
    rw [hopts2]
    split_ifs <;> rfl
  have hopts2ne : opts2.filterChainOpts ≠ [] := by
    rw [hopts2]
    split_ifs <;> simp [hopts1, hfco]
  set lo := appendListenerFallthroughRoute flags node (buildListener opts2) opts2 ce
    with hlo
  have hlone : lo.2.filterChainOpts ≠ [] :=
    appendFallthrough_snd_ne_nil flags node (buildListener opts2) opts2 ce hopts2ne
  obtain ⟨l2, hl2, hl2b, hl2p⟩ := buildCompleteFilterChain_eq_ok lo.2 lo.1 hlone
  have hl2bind : l2.bindAddress = bind := by
    rw [hl2b, hlo, appendFallthrough_fst_bindAddress, buildListener_bindAddress, hopts2bind]
  have hl2port : l2.port = params.port.port := by
    rw [hl2p, hlo, appendFallthrough_fst_port, buildListener_port, hopts2port, hport]
  have hl2key : key = listenerKey l2 := by
    rw [listenerKey, hl2bind, hl2port, hkey]
  rw [hl2]
  rcases hce with ⟨hcn, hfresh⟩ | ⟨e, hcs, hlook⟩
  · subst hcn
    exact RegistryInv_append_fresh _ _ _ hl2key hfresh hinv
  · subst hcs
    refine RegistryInv_updateEntry_replace _ _ _ ?_ hinv
    have he : key = listenerKey e.listener := hinv.2 (key, e) (lookupEntry_mem hlook)
    rw [listenerKey, (mergeTCPChains_listener_frame key params e l2.filterChains).1,
      (mergeTCPChains_listener_frame key params e l2.filterChains).2]
    exact he

theorem outbound_step_registryInv (flags : Flags) (node : Proxy) (aw : String)
    (opts : BuildListenerOpts) (params : PluginParams) (st : OutState)
    (hport : opts.port = params.port.port)
    (hinv : RegistryInv st.listenerMap) :
    RegistryInv
      (buildSidecarOutboundListenerForPortOrUDS flags node aw opts params st).listenerMap := by
  unfold buildSidecarOutboundListenerForPortOrUDS
  cases hlp : params.listenerProtocol with
  | LPUnknown => exact hinv
  | LPHTTP =>
    cases hdec : outboundHTTPDecision aw opts params st with
    | reject st2 =>
      rcases outboundHTTPDecision_reject_map hdec with hmap | ⟨k, g, hmap, hg⟩
      · show RegistryInv st2.listenerMap
        rw [hmap]
        exact hinv
      · show RegistryInv st2.listenerMap
        rw [hmap]
        exact RegistryInv_updateEntry _ _ _ hg hinv
    | build bind key dcidr fco ce =>
      obtain ⟨hk, hf, hc, hfresh⟩ := outboundHTTPDecision_build_inv hdec
      subst hc
      exact outboundBuildCommit_registryInv flags node aw opts params st bind key fco none
        hk hport hf (Or.inl ⟨rfl, hk ▸ hfresh⟩) hinv
  | LPTCP =>
    cases hdec : outboundTCPDecision aw opts params st with
    | reject st2 =>
      show RegistryInv st2.listenerMap
      rw [outboundTCPDecision_reject_map hdec]
      exact hinv
    | build bind key dcidr fco ce =>
      obtain ⟨hk, hf, hce⟩ := outboundTCPDecision_build_inv hdec
      exact outboundBuildCommit_registryInv flags node aw opts params st bind key fco ce
        hk hport hf hce hinv

theorem foldl_registryInv {α : Type} (f : OutState → α → OutState)
    (hf : ∀ s a, RegistryInv s.listenerMap → RegistryInv (f s a).listenerMap)
    (l : List α) (s : OutState) (hs : RegistryInv s.listenerMap) :
    RegistryInv ((l.foldl f s).listenerMap) := by
  induction l generalizing s with
  | nil => exact hs
  | cons a rest ih => exact ih _ (hf s a hs)

theorem processOutboundService_registryInv (flags : Flags) (node : Proxy) (aw : String)
    (bind : String) (bindToPort : Bool) (lp : Port) (svc : Service) (s : OutState)
    (hs : RegistryInv s.listenerMap) :
    RegistryInv ((processOutboundService flags node aw bind bindToPort lp svc s).listenerMap) :=
  outbound_step_registryInv _ _ _ _ _ _ rfl hs

theorem processEgressListener_registryInv (flags : Flags) (node : Proxy) (aw alh : String)
    (st : OutState) (eg : EgressListener) (hs : RegistryInv st.listenerMap) :
    RegistryInv ((processEgressListener flags node aw alh st eg).listenerMap) := by
  have hcatch : ∀ (bTP : Bool) (s : OutState), RegistryInv s.listenerMap →
      RegistryInv ((processCatchAllRule flags node aw alh eg bTP s).listenerMap) := by
    intro bTP s hs2
    simp only [processCatchAllRule]
    refine foldl_registryInv _ ?_ _ _ ?_
    · intro s2 svc hs3
      refine foldl_registryInv _ ?_ _ _ hs3
      intro s3 sp hs4
      by_cases hv : validatePort node sp.port bTP = true
      · simpa [hv] using
          processOutboundService_registryInv flags node aw _ bTP sp svc s3 hs4
      · simp only [Bool.not_eq_true] at hv
        simpa [hv] using hs4
    · exact RegistryInv_lockAllEntries _ hs2
  simp only [processEgressListener]
  cases hil : eg.istioListener with
  | none =>
    simp only [hil]
    exact hcatch _ _ hs
  | some il =>
    simp only [hil]
    cases hp : il.port with
    | none =>
      simp only [hp]
      exact hcatch _ _ hs
    | some p =>
      simp only [hp, processExplicitPortRule]
      exact foldl_registryInv _
        (fun s svc hs2 => processOutboundService_registryInv flags node aw _ _ p svc s hs2)
        _ _ hs

theorem buildSidecarOutboundRegistry_registryInv (flags : Flags) (node : Proxy) :
    RegistryInv (buildSidecarOutboundRegistry flags node).listenerMap := by
  simp only [buildSidecarOutboundRegistry]
  exact foldl_registryInv _
    (fun s eg hs => processEgressListener_registryInv flags node _ _ s eg hs)
    _ _ RegistryInv_nil

theorem lookupInbound_eq_none_iff (k : String) (m : List (String × InboundListenerEntry)) :
    lookupInbound k m = none ↔ k ∉ m.map Prod.fst := by
  induction m with
  | nil => simp [lookupInbound]
  | cons ke rest ih =>
    obtain ⟨k2, e⟩ := ke
    by_cases h : k2 = k
    · subst h
      simp [lookupInbound]
    · simp only [lookupInbound, if_neg h, ih, List.map_cons, List.mem_cons]
      constructor
      · rintro hk (rfl | hm)
        · exact h rfl
        · exact hk hm
      · intro hk hm
        exact hk (Or.inr hm)

theorem inbound_builder_success (node : Proxy) (opts : BuildListenerOpts)
    (lp : ListenerProtocol) (inst : ServiceInstance) (st : InState)
    (hlp : lp = .LPHTTP ∨ lp = .LPTCP)
    (hlook : lookupInbound (opts.bind ++ ":" ++ toString opts.port) st.lmap = none) :
    ∃ l, buildSidecarInboundListenerForPortOrUDS node opts lp inst st =
      (some l, { st with lmap := st.lmap ++ [(opts.bind ++ ":" ++ toString opts.port,
        { bind := opts.bind, instanceHostname := inst.service.hostname })] }) ∧
      l.bindAddress = opts.bind ∧ l.port = opts.port := by
  rcases hlp with h | h <;> subst h
  · obtain ⟨l2, hl2, hb, hp⟩ := buildCompleteFilterChain_eq_ok
      { opts with filterChainOpts := [{ emptyChainOpts with httpOpts := some { rds := "" } }] }
      (buildListener
        { opts with filterChainOpts := [{ emptyChainOpts with httpOpts := some { rds := "" } }] })
      (by simp)
    refine ⟨l2, ?_, by rw [hb]; rfl, by rw [hp]; rfl⟩
    simp only [buildSidecarInboundListenerForPortOrUDS, hlook, hl2]
  · obtain ⟨l2, hl2, hb, hp⟩ := buildCompleteFilterChain_eq_ok
      { opts with filterChainOpts :=
          [{ emptyChainOpts with networkFilters := buildInboundNetworkFilters inst }] }
      (buildListener
        { opts with filterChainOpts :=
            [{ emptyChainOpts with networkFilters := buildInboundNetworkFilters inst }] })
      (by simp)
    refine ⟨l2, ?_, by rw [hb]; rfl, by rw [hp]; rfl⟩
    simp only [buildSidecarInboundListenerForPortOrUDS, hlook, hl2]

theorem inbound_builder_inv (node : Proxy) (opts : BuildListenerOpts)
    (lp : ListenerProtocol) (inst : ServiceInstance) (ls : List Listener) (st : InState)
    (h : InboundInv ls st) :
    InboundInv
      (appendIfSome ls (buildSidecarInboundListenerForPortOrUDS node opts lp inst st).1)
      (buildSidecarInboundListenerForPortOrUDS node opts lp inst st).2 := by
  cases hlook : lookupInbound (opts.bind ++ ":" ++ toString opts.port) st.lmap with
  | some old =>
    simp only [buildSidecarInboundListenerForPortOrUDS, hlook]
    exact h
  | none =>
    have hfresh : (opts.bind ++ ":" ++ toString opts.port) ∉ st.lmap.map Prod.fst :=
      (lookupInbound_eq_none_iff _ _).1 hlook
    have hsuc : ∀ lp2, lp2 = ListenerProtocol.LPHTTP ∨ lp2 = ListenerProtocol.LPTCP →
        InboundInv
          (appendIfSome ls (buildSidecarInboundListenerForPortOrUDS node opts lp2 inst st).1)
          (buildSidecarInboundListenerForPortOrUDS node opts lp2 inst st).2 := by
      intro lp2 hlp2
      obtain ⟨l, heq, hb, hp⟩ := inbound_builder_success node opts lp2 inst st hlp2 hlook
      rw [heq]
      show InboundInv (ls ++ [l]) _
      constructor
      · rw [List.map_append]
        show _ = (st.lmap ++ _).map Prod.fst
        rw [List.map_append, h.1]
        simp [listenerKey, hb, hp]
      · show ((st.lmap ++ _).map Prod.fst).Nodup
        rw [List.map_append]
        exact h.2.append (List.nodup_singleton _) (by simpa using hfresh)
    cases lp with
    | LPUnknown =>
      simp only [buildSidecarInboundListenerForPortOrUDS, hlook]
      exact h
    | LPHTTP => exact hsuc _ (Or.inl rfl)
    | LPTCP => exact hsuc _ (Or.inr rfl)

theorem processInboundInstance_inv (node : Proxy) (acc : List Listener × InState)
    (inst : ServiceInstance) (h : InboundInv acc.1 acc.2) :
    InboundInv (processInboundInstance node acc inst).1
      (processInboundInstance node acc inst).2 :=
  inbound_builder_inv node (inboundInstanceOpts inst)
    (modelProtocolToListenerProtocol inst.endpointServicePort.protocol) inst acc.1 acc.2 h

theorem processIngressListener_inv (node : Proxy) (acc : List Listener × InState)
    (ing : IngressListenerCfg) (h : InboundInv acc.1 acc.2) :
    InboundInv (processIngressListener node acc ing).1
      (processIngressListener node acc ing).2 := by
  simp only [processIngressListener]
  cases hfind : findServiceInstanceForIngressListener node.serviceInstances ing with
  | none =>
    simp only [hfind]
    exact h
  | some inst =>
    simp only [hfind]
    exact inbound_builder_inv node (ingressListenerOpts node ing inst)
      (modelProtocolToListenerProtocol ing.port.protocol) inst acc.1 acc.2 h

theorem foldl_inboundInv {α : Type}
    (f : (List Listener × InState) → α → (List Listener × InState))
    (hf : ∀ acc a, InboundInv acc.1 acc.2 → InboundInv (f acc a).1 (f acc a).2)
    (l : List α) (acc : List Listener × InState) (h : InboundInv acc.1 acc.2) :
    InboundInv (l.foldl f acc).1 (l.foldl f acc).2 := by
  induction l generalizing acc with
  | nil => exact h
  | cons a rest ih => exact ih _ (hf acc a h)

theorem inbound_stage_keys_nodup (node : Proxy) :
    (((buildSidecarInboundListeners node).1).map listenerKey).Nodup := by
  have hbase : InboundInv ([] : List Listener) emptyInState := by
    constructor <;> simp [emptyInState]
  have hmain : ∀ (r : List Listener × InState), InboundInv r.1 r.2 →
      ((r.1).map listenerKey).Nodup := by
    intro r hr
    rw [hr.1]
    exact hr.2
  unfold buildSidecarInboundListeners
  by_cases hcustom : node.sidecarScope.hasCustomIngressListeners = true
  · simp only [hcustom]
    exact hmain _ (foldl_inboundInv _ (processIngressListener_inv node) _ _ hbase)
  · simp only [Bool.not_eq_true] at hcustom
    simp only [hcustom]
    by_cases hnone : node.interceptionMode = InterceptionMode.NONE
    · simp [hnone]
    · simp only [hnone, if_neg, ite_false]
      exact hmain _ (foldl_inboundInv _ (processInboundInstance_inv node) _ _ hbase)

theorem listenerPairs_nodup_of_keys (ls : List Listener)
    (h : (ls.map listenerKey).Nodup) : (ls.map listenerPair).Nodup := by
  have heq : ls.map listenerKey =
      (ls.map listenerPair).map (fun p => p.1 ++ ":" ++ toString p.2) := by
    rw [List.map_map]
    rfl
  rw [heq] at h
  exact h.of_map _

/-- C1 (amended): within each stage the bind:port claims are exclusive —
the inbound stage never emits two listeners with the same (bind address,
port) pair, and the outbound registry never yields two collated listeners
with the same pair.  (Listeners of different stages can still collide, per
the counterexample: no cross-stage deduplication exists.) -/
theorem per_stage_listener_keys_unique (flags : Flags) (node : Proxy) :
    (((buildSidecarInboundListeners node).1).map listenerPair).Nodup ∧
    ((collateOutbound (buildSidecarOutboundRegistry flags node).listenerMap).map
      listenerPair).Nodup := by
  constructor
  · exact listenerPairs_nodup_of_keys _ (inbound_stage_keys_nodup node)
  · have hinv := buildSidecarOutboundRegistry_registryInv flags node
    have hkeys : ((buildSidecarOutboundRegistry flags node).listenerMap.map
        (fun ke => listenerKey ke.2.listener)).Nodup := by
      have heq : (buildSidecarOutboundRegistry flags node).listenerMap.map
          (fun ke => listenerKey ke.2.listener) =
          (buildSidecarOutboundRegistry flags node).listenerMap.map Prod.fst :=
        List.map_congr_left fun ke hke => (hinv.2 ke hke).symm
      rw [heq]
      exact hinv.1
    have hpairs : ((buildSidecarOutboundRegistry flags node).listenerMap.map
        (fun ke => listenerPair ke.2.listener)).Nodup := by
      apply List.Nodup.of_map (fun p : String × Nat => p.1 ++ ":" ++ toString p.2)
      rw [List.map_map]
      exact hkeys
    rw [collateOutbound_eq, ← List.map_append, List.map_map]
    have hperm := (List.filter_append_perm
        (fun ke : String × OutboundListenerEntry => ke.2.servicePort.protocol.isTCP)
        (buildSidecarOutboundRegistry flags node).listenerMap).map
      (fun ke => listenerPair ke.2.listener)
    exact hperm.symm.nodup hpairs

/-- C1 counterexample: one full synthesis of a proxy whose inbound endpoint
listener (10.0.0.1:8080) and outbound VIP listener (10.0.0.1:8080) collide
— the final listener set holds two listeners with the same (bind address,
port) pair, because the inbound and outbound stages deduplicate only within
themselves. -/
theorem cross_stage_duplicate_bind_port :
    ¬ ((buildSidecarListeners flagsOff envSimple nodeC1).map listenerPair).Nodup := by
  decide

end IstioListeners
